import Mathlib

/-!
# STM32F1_RTC: a shallow embedding of the driver and its verified properties

The definitions below embed `src/stm32f1_rtc.h` and `src/stm32f1_rtc.cpp`.
Machine integers are `Nat`/`Int` with explicit wrap-around conversions
(`u8`, `u16`, `u32`, `i16`).  Reference parameters (`DateVar &`, `TimeVar &`)
become an input value and a returned value.  Memory-mapped registers become the
fields of `Regs`; the three static handler pointers become the fields of
`Driver`.
-/

namespace STM32F1_RTC

/-! ## Machine integers -/

/-- Conversion to `uint8_t`. -/
def u8 (x : Int) : Nat := (x % 256).toNat

/-- Conversion to `uint16_t`. -/
def u16 (x : Int) : Nat := (x % 65536).toNat

/-- Conversion to `uint32_t` (also used for the wrap-around of 32-bit `int`
arithmetic whose result is stored in a `uint32_t`). -/
def u32 (x : Int) : Nat := (x % 4294967296).toNat

/-- Conversion to `int16_t` (two's complement wrap-around). -/
def i16 (x : Int) : Int := (x + 32768) % 65536 - 32768

/-- Rounding to the nearest binary32 value, ties to even, of a number given as
an integer count of quarters (`q` stands for `q / 4`).  Every quarter count
below `2 ^ 24` in magnitude is representable exactly. -/
def roundF32 (q : Int) : Int :=
  let n := q.natAbs
  if n < 16777216 then q
  else
    let e := Nat.log2 n - 23
    let m := n / 2 ^ e
    let r := n % 2 ^ e
    let half := 2 ^ (e - 1)
    let m := if r > half ∨ (r = half ∧ m % 2 = 1) then m + 1 else m
    Int.sign q * ((m * 2 ^ e : Nat) : Int)

/-! ## Data model (`stm32f1_rtc.h`) -/

/-- The `DateVar` structure: `uint16_t numberOfDays, year; int16_t month, day;
uint8_t weekday; bool isLeapYear`. -/
structure DateVar where
  numberOfDays : Nat
  year : Nat
  month : Int
  day : Int
  weekday : Nat
  isLeapYear : Bool
  deriving DecidableEq, Repr

/-- The `TimeVar` structure: `int16_t hours, minutes, seconds`. -/
structure TimeVar where
  hours : Int
  minutes : Int
  seconds : Int
  deriving DecidableEq, Repr

/-- Enumerator `JANUARY` of `MonthIndex`. -/
def JANUARY : Nat := 0

/-- Enumerator `FEBRUARY` of `MonthIndex`. -/
def FEBRUARY : Nat := 1

/-- Enumerator `DECEMBER` of `MonthIndex`. -/
def DECEMBER : Nat := 11

/-- The private table `numberOfDaysUntilMonth[12]`. -/
def numberOfDaysUntilMonth : List Nat :=
  [0, 31, 59, 90, 120, 151, 181, 212, 243, 273, 304, 334]

/-! ## Gregorian calendar converter (`stm32f1_rtc.cpp`) -/

/-- `getNumberOfDaysUntilMonth(int16_t monthIndex, bool isLeapYear)`.  An index
outside the table is undefined behaviour in the source; the embedding reads 0
there. -/
def getNumberOfDaysUntilMonth (monthIndex : Int) (isLeapYear : Bool) : Nat :=
  let n := if 0 ≤ monthIndex then numberOfDaysUntilMonth.getD monthIndex.toNat 0 else 0
  if isLeapYear ∧ monthIndex > FEBRUARY then u16 (n + 1) else n

/-- `getSumOfDayFromYearValue(uint16_t year)`.  The `float fsod` is carried as a
count of quarter days: `(float)(year - 1970) * 365.25 + 0.25` is evaluated in
`double` (exact) and rounded once to binary32 on assignment, `fsod -= 0.5`
likewise.  The final `(uint16_t)fsod` truncates toward zero; where the value
does not fit `uint16_t` (undefined in the source) the embedding wraps. -/
def getSumOfDayFromYearValue (year : Nat) : Nat :=
  let fsod : Int := roundF32 (((year : Int) - 1970) * 1461 + 1)
  let fsod : Int := if year > 2100 then roundF32 (fsod - 2) else fsod
  u16 (Int.tdiv fsod 4)

/-- The leap-year predicate `((year - 1968) % 4) == 0 && year != 2100` that both
converters assign to `isLeapYear`. -/
def leapYearOf (year : Nat) : Bool :=
  (Int.tmod ((year : Int) - 1968) 4 == 0) && (year != 2100)

/-- The month search loop of `epochToDate`,
`for (int8_t i = DECEMBER; i >= JANUARY; i--)`: the argument `n` is `i + 1`, so
the loop starts at `n = 12` and ends without a `break` at `n = 0`.  The result is
the pair `(day, month)` assigned before the `break`. -/
def monthLoop (isLeapYear : Bool) (sod : Nat) : Nat → Option (Int × Int)
  | 0 => none
  | i + 1 =>
    let dom := getNumberOfDaysUntilMonth i isLeapYear
    if dom ≤ sod then some (i16 ((sod : Int) - dom + 1), i16 ((i : Int) + 1))
    else monthLoop isLeapYear sod i

/-- `epochToDate(uint32_t time, DateVar & rdate)`: the returned value is `rdate`
after the call. -/
def epochToDate (time : Nat) (rdate : DateVar) : DateVar :=
  let numberOfDays := u16 (time / 86400 : Nat)
  let year := u16 ((numberOfDays / 365 : Nat) + 1970)
  let sod := getSumOfDayFromYearValue year
  let year := if sod > numberOfDays then u16 ((year : Int) - 1) else year
  let sod := if sod > numberOfDays then getSumOfDayFromYearValue year else sod
  let isLeapYear := leapYearOf year
  let sod := u16 ((numberOfDays : Int) - sod)
  let dm := (monthLoop isLeapYear sod (DECEMBER + 1)).getD (rdate.day, rdate.month)
  { numberOfDays := numberOfDays
    year := year
    month := dm.2
    day := dm.1
    weekday := u8 (((numberOfDays : Int) + 4) % 7)
    isLeapYear := isLeapYear }

/-- `epochToTime(uint32_t time, TimeVar & rtime)`. -/
def epochToTime (time : Nat) (_rtime : TimeVar) : TimeVar :=
  let tm := time % 86400
  let hours := i16 (tm / 3600 : Nat)
  let tm := tm % 3600
  { hours := hours
    minutes := i16 (tm / 60 : Nat)
    seconds := i16 (tm % 60 : Nat) }

/-- `dateTimeToEpoch(DateVar & rdate, TimeVar & rtime)`: the returned triple is
the epoch, then `rdate` and `rtime` after the call.  The `int` arithmetic that
forms `time` wraps modulo `2 ^ 32` on assignment to the `uint32_t`. -/
def dateTimeToEpoch (rdate : DateVar) (rtime : TimeVar) : Nat × DateVar × TimeVar :=
  let year :=
    if rdate.month > 0 then u16 ((rdate.year : Int) + Int.tdiv (rdate.month - 1) 12)
    else u16 ((rdate.year : Int) - (1 - Int.tdiv rdate.month 12))
  let month :=
    if rdate.month > 0 then i16 (Int.tmod (rdate.month - 1) 12 + 1)
    else i16 (12 + Int.tmod rdate.month 12)
  let year := if year < 1970 then 1970 else if year > 2105 then 2105 else year
  let isLeapYear := leapYearOf year
  let numberOfDays :=
    u16 ((getSumOfDayFromYearValue year : Int)
      + getNumberOfDaysUntilMonth (month - 1) isLeapYear + rdate.day - 1)
  let time :=
    u32 ((numberOfDays : Int) * 86400 + rtime.hours * 3600 + rtime.minutes * 60
      + rtime.seconds)
  let rdate1 : DateVar :=
    { rdate with year := year, month := month, isLeapYear := isLeapYear,
                 numberOfDays := numberOfDays }
  (time, epochToDate time rdate1, epochToTime time rtime)

/-! ## Hijri calendar converter -/

/-- The number of binary digits of `n`, found sixteen digits at a time while
`n` has more than sixteen; the first argument bounds the number of steps. -/
def bitLengthAux : Nat → Nat → Nat
  | 0, _ => 0
  | fuel + 1, n =>
    if n = 0 then 0
    else if n < 65536 then bitLengthAux fuel (n / 2) + 1
    else bitLengthAux fuel (n / 65536) + 16

/-- The number of binary digits of `n`. -/
def bitLength (n : Nat) : Nat := bitLengthAux n n

/-- Rounding to the nearest binary64 value, ties to even.  A `double` `x` is
carried as the integer `x * 2 ^ 64`; `roundF64 num den` is the binary64 nearest
to the exact value `num / den` (in the same unit): the quotient is cut to its 53
leading binary digits and rounded on what was cut.  The result is the correctly
rounded one whenever it is zero, exact, or at least `2 ^ 52` units, that is
`2 ^ -12`, in magnitude. -/
def roundF64 (num : Int) (den : Nat) : Int :=
  let n := num.natAbs
  let q := n / den
  let e := bitLength q - 53
  let m := q / 2 ^ e
  let lo := (q % 2 ^ e) * den + n % den
  let m := if 2 * lo > 2 ^ e * den ∨ (2 * lo = 2 ^ e * den ∧ m % 2 = 1) then m + 1 else m
  Int.sign num * ((m * 2 ^ e : Nat) : Int)

/-- The conversion `(double)n` of an integer of at most 53 bits. -/
def dblOfInt (n : Int) : Int := n * ((2 ^ 64 : Nat) : Int)

/-- Sum of two `double`s. -/
def dblAdd (a b : Int) : Int := roundF64 (a + b) 1

/-- Difference of two `double`s. -/
def dblSub (a b : Int) : Int := roundF64 (a - b) 1

/-- Product of two `double`s. -/
def dblMul (a b : Int) : Int := roundF64 (a * b) (2 ^ 64)

/-- Quotient of two `double`s (the divisor is not zero). -/
def dblDiv (a b : Int) : Int := roundF64 (a * ((2 ^ 64 : Nat) : Int) * Int.sign b) b.natAbs

/-- The function `floor` on a `double`, as an integer. -/
def dblFloor (a : Int) : Int := a / ((2 ^ 64 : Nat) : Int)

/-- Macro `MOON_CYCLE`, the `double` nearest to 29.5305882. -/
def MOON_CYCLE : Int := roundF64 (295305882 * ((2 ^ 64 : Nat) : Int)) 10000000

/-- Macro `HIJRI_DIFF`, the `double` nearest to 21.252353. -/
def HIJRI_DIFF : Int := roundF64 (21252353 * ((2 ^ 64 : Nat) : Int)) 1000000

/-- `getNumberOfDaysUntillHijriMonth(int16_t hmonth)`. -/
def getNumberOfDaysUntillHijriMonth (hmonth : Int) : Nat :=
  u16 (dblFloor (dblMul (dblOfInt hmonth) MOON_CYCLE))

/-- `epochToHijriDate(uint32_t time, DateVar & rhdate)`: the returned value is
`rhdate` after the call. -/
def epochToHijriDate (time : Nat) (_rhdate : DateVar) : DateVar :=
  let numberOfDays := u16 (time / 86400 : Nat)
  let nod := dblAdd (dblOfInt numberOfDays) HIJRI_DIFF
  let month := i16 (dblFloor (dblDiv nod MOON_CYCLE))
  let nodim := getNumberOfDaysUntillHijriMonth month
  let dim := u8 ((getNumberOfDaysUntillHijriMonth (i16 (month + 1)) : Int) - nodim)
  let day := i16 (i16 (dblFloor (dblSub nod (dblOfInt nodim))) + 1)
  let month := if day > dim then i16 (month + 1) else month
  let day := if day > dim then 1 else day
  let month := i16 (month + 9)
  let year := u16 (Int.tdiv month 12 + 1389)
  let month := i16 (Int.tmod month 12 + 1)
  { numberOfDays := numberOfDays
    year := year
    month := month
    day := day
    weekday := u8 (((numberOfDays : Int) + 4) % 7)
    isLeapYear := false }

/-- `hijriDateTimeToEpoch(DateVar & rhdate, TimeVar & rtime)`: the returned
triple is the epoch, then `rhdate` and `rtime` after the call. -/
def hijriDateTimeToEpoch (rhdate : DateVar) (rtime : TimeVar) : Nat × DateVar × TimeVar :=
  let year :=
    if rhdate.month > 0 then u16 ((rhdate.year : Int) + Int.tdiv (rhdate.month - 1) 12)
    else u16 ((rhdate.year : Int) - (1 - Int.tdiv rhdate.month 12))
  let month :=
    if rhdate.month > 0 then i16 (Int.tmod (rhdate.month - 1) 12 + 1)
    else i16 (12 + Int.tmod rhdate.month 12)
  let year := if year < 1389 then 1389 else if year > 1529 then 1529 else year
  let numberOfDays :=
    u16 (dblFloor (dblAdd
      (dblMul (dblOfInt (((year : Int) - 1389) * 12 + month - 10)) MOON_CYCLE)
      (dblOfInt (rhdate.day - 22))))
  let time :=
    u32 ((numberOfDays : Int) * 86400 + rtime.hours * 3600 + rtime.minutes * 60
      + rtime.seconds)
  let rhdate1 : DateVar :=
    { rhdate with year := year, month := month, numberOfDays := numberOfDays }
  (time, epochToHijriDate time rhdate1, epochToTime time rtime)

/-! ## Register port and driver state -/

/-- Board-support constants that the driver uses but the repository does not
declare (they come from the vendor device header), and the build switch
`(BKP_NR_DATA_REGS == 42) || defined(BKP_DR42_D)`.  They are parameters of the
embedding. -/
structure Bsp where
  PWR_CR_DBP : Nat
  RCC_APB1ENR_PWREN : Nat
  RCC_APB1ENR_BKPEN : Nat
  RCC_BDCR_BDRST : Nat
  RCC_BDCR_LSEON : Nat
  RCC_BDCR_LSERDY : Nat
  RCC_BDCR_RTCSEL_LSE : Nat
  RCC_BDCR_RTCEN : Nat
  extendedBackup : Bool

/-- The memory-mapped registers the driver touches, one field per register macro
of `stm32f1_rtc.h`; `BKP_DR` is the word array at `0x40006C00`, indexed as in the
source.  `NVIC_EN0` is the interrupt-enable set behind `NVIC_ISER[0]` and
`NVIC_ICER[0]`: a write to `ISER` sets the written bits, a write to `ICER` clears
them. -/
structure Regs where
  RTC_CRH : Nat
  RTC_CRL : Nat
  RTC_PRLL : Nat
  RTC_DIVH : Nat
  RTC_DIVL : Nat
  RTC_CNTH : Nat
  RTC_CNTL : Nat
  RTC_ALRH : Nat
  RTC_ALRL : Nat
  RCC_APB1ENR : Nat
  RCC_BDCR : Nat
  PWR_CR : Nat
  NVIC_EN0 : Nat
  BKP_DR : Nat → Nat

/-- A registered handler `void (*)(void)`: user code, seen by the driver only
through what it does to the registers. -/
abbrev Handler := Regs → Regs

/-- The registers together with the three static handler pointers
`ISR_RTC_SEC`, `ISR_RTC_ALR`, `ISR_RTC_OW` (`none` is `NULL`). -/
structure Driver where
  regs : Regs
  ISR_RTC_SEC : Option Handler
  ISR_RTC_ALR : Option Handler
  ISR_RTC_OW : Option Handler

/-- The enumeration `InterruptMode`. -/
inductive InterruptMode where
  | RTC_SECONDS_INTERRUPT
  | RTC_ALARM_INTERRUPT
  | RTC_OVERFLOW_INTERRUPT
  deriving DecidableEq, Repr

/-- Macro `RTC_CRH_OWIE_BIT`. -/
def RTC_CRH_OWIE_BIT : Nat := 2

/-- Macro `RTC_CRH_ALRIE_BIT`. -/
def RTC_CRH_ALRIE_BIT : Nat := 1

/-- Macro `RTC_CRH_SECIE_BIT`. -/
def RTC_CRH_SECIE_BIT : Nat := 0

/-- Macro `RTC_CRH_OWIE`, `BIT(RTC_CRH_OWIE_BIT)`. -/
def RTC_CRH_OWIE : Nat := 2 ^ RTC_CRH_OWIE_BIT

/-- Macro `RTC_CRH_ALRIE`, `BIT(RTC_CRH_ALRIE_BIT)`. -/
def RTC_CRH_ALRIE : Nat := 2 ^ RTC_CRH_ALRIE_BIT

/-- Macro `RTC_CRH_SECIE`, `BIT(RTC_CRH_SECIE_BIT)`. -/
def RTC_CRH_SECIE : Nat := 2 ^ RTC_CRH_SECIE_BIT

/-- Macro `RTC_CRL_RTOFF_BIT`. -/
def RTC_CRL_RTOFF_BIT : Nat := 5

/-- Macro `RTC_CRL_CNF_BIT`. -/
def RTC_CRL_CNF_BIT : Nat := 4

/-- Macro `RTC_CRL_RSF_BIT`. -/
def RTC_CRL_RSF_BIT : Nat := 3

/-- Macro `RTC_CRL_OWF_BIT`. -/
def RTC_CRL_OWF_BIT : Nat := 2

/-- Macro `RTC_CRL_ALRF_BIT`. -/
def RTC_CRL_ALRF_BIT : Nat := 1

/-- Macro `RTC_CRL_SECF_BIT`. -/
def RTC_CRL_SECF_BIT : Nat := 0

/-- Macro `RTC_CRL_RTOFF`, `BIT(RTC_CRL_RTOFF_BIT)`. -/
def RTC_CRL_RTOFF : Nat := 2 ^ RTC_CRL_RTOFF_BIT

/-- Macro `RTC_CRL_CNF`, `BIT(RTC_CRL_CNF_BIT)`. -/
def RTC_CRL_CNF : Nat := 2 ^ RTC_CRL_CNF_BIT

/-- Macro `RTC_CRL_RSF`, `BIT(RTC_CRL_RSF_BIT)`. -/
def RTC_CRL_RSF : Nat := 2 ^ RTC_CRL_RSF_BIT

/-- Macro `RTC_CRL_OWF`, `BIT(RTC_CRL_OWF_BIT)`. -/
def RTC_CRL_OWF : Nat := 2 ^ RTC_CRL_OWF_BIT

/-- Macro `RTC_CRL_ALRF`, `BIT(RTC_CRL_ALRF_BIT)`. -/
def RTC_CRL_ALRF : Nat := 2 ^ RTC_CRL_ALRF_BIT

/-- Macro `RTC_CRL_SECF`, `BIT(RTC_CRL_SECF_BIT)`. -/
def RTC_CRL_SECF : Nat := 2 ^ RTC_CRL_SECF_BIT

/-- Macro `RTC_INIT_REG`. -/
def RTC_INIT_REG : Nat := 1

/-- Macro `RTC_INIT_FLAG`, `1 << RTC_INIT_BIT`. -/
def RTC_INIT_FLAG : Nat := 1

/-- The value `x & ~m` of a 32-bit register `x` under a 32-bit mask `m`. -/
def clearBits (x m : Nat) : Nat := x &&& (4294967295 ^^^ m)

/-- A busy-wait `while (busy);` on a hardware bit.  Between two polls the
hardware moves the registers by `hw`; `fuel` bounds the number of polls, and
`none` stands for a wait that has not ended within them. -/
def waitWhile (hw : Regs → Regs) (busy : Regs → Bool) : Nat → Regs → Option Regs
  | 0, _ => none
  | fuel + 1, r => if busy r then waitWhile hw busy fuel (hw r) else some r

/-- `waitFinished()`: `while ((RTC_CRL & RTC_CRL_RTOFF) == 0);`. -/
def waitFinished (hw : Regs → Regs) (fuel : Nat) (r : Regs) : Option Regs :=
  waitWhile hw (fun r => r.RTC_CRL &&& RTC_CRL_RTOFF == 0) fuel r

/-- `waitSync()`: clear `RSF`, then wait for the hardware to set it. -/
def waitSync (hw : Regs → Regs) (fuel : Nat) (r : Regs) : Option Regs :=
  waitWhile hw (fun r => r.RTC_CRL &&& RTC_CRL_RSF == 0) fuel
    { r with RTC_CRL := clearBits r.RTC_CRL RTC_CRL_RSF }

/-- `enterConfigMode()`. -/
def enterConfigMode (r : Regs) : Regs := { r with RTC_CRL := r.RTC_CRL ||| RTC_CRL_CNF }

/-- `exitConfigMode()`. -/
def exitConfigMode (r : Regs) : Regs := { r with RTC_CRL := clearBits r.RTC_CRL RTC_CRL_CNF }

/-- `enableBackupWrites()`. -/
def enableBackupWrites (b : Bsp) (r : Regs) : Regs :=
  { r with PWR_CR := r.PWR_CR ||| b.PWR_CR_DBP }

/-- `disableBackupWrites()`. -/
def disableBackupWrites (b : Bsp) (r : Regs) : Regs :=
  { r with PWR_CR := clearBits r.PWR_CR b.PWR_CR_DBP }

/-- `enableClockInterface()`. -/
def enableClockInterface (b : Bsp) (r : Regs) : Regs :=
  { r with RCC_APB1ENR := r.RCC_APB1ENR ||| (b.RCC_APB1ENR_PWREN ||| b.RCC_APB1ENR_BKPEN) }

/-- `isInitialized()`. -/
def isInitialized (r : Regs) : Bool :=
  r.BKP_DR RTC_INIT_REG &&& RTC_INIT_FLAG == RTC_INIT_FLAG

/-! ## Clock domain initializer -/

/-- `init()`.  The registers are plain storage here: what the hardware does on
the backup-domain reset bit is not part of the embedding. -/
def init (b : Bsp) (hw : Regs → Regs) (fuel : Nat) (r : Regs) : Option Regs := do
  let r := enableBackupWrites b r
  let r := { r with RCC_BDCR := r.RCC_BDCR ||| b.RCC_BDCR_BDRST }
  let r := { r with RCC_BDCR := clearBits r.RCC_BDCR b.RCC_BDCR_BDRST }
  let r := { r with RCC_BDCR := r.RCC_BDCR ||| b.RCC_BDCR_LSEON }
  let r ← waitWhile hw (fun r => r.RCC_BDCR &&& b.RCC_BDCR_LSERDY == 0) fuel r
  let r := { r with RCC_BDCR := r.RCC_BDCR ||| b.RCC_BDCR_RTCSEL_LSE }
  let r := { r with RCC_BDCR := r.RCC_BDCR ||| b.RCC_BDCR_RTCEN }
  let r ← waitSync hw fuel r
  let r ← waitFinished hw fuel r
  let r := enterConfigMode r
  let r := { r with RTC_PRLL := 32767 }
  let r := exitConfigMode r
  let r ← waitFinished hw fuel r
  let r := { r with BKP_DR := Function.update r.BKP_DR RTC_INIT_REG
                                (r.BKP_DR RTC_INIT_REG ||| RTC_INIT_FLAG) }
  pure (disableBackupWrites b r)

/-- `begin()`: the returned pair is `isInit` and the registers after the call. -/
def begin (b : Bsp) (hw : Regs → Regs) (fuel : Nat) (r : Regs) : Option (Bool × Regs) :=
  let isInit := isInitialized r
  let r := enableClockInterface b r
  if isInit then (waitSync hw fuel r).map fun r => (isInit, r)
  else (init b hw fuel r).map fun r => (isInit, r)

/-! ## Interrupt dispatch -/

/-- `attachInterrupt(InterruptMode im, void (*handler)(void))`. -/
def attachInterrupt (hw : Regs → Regs) (fuel : Nat) (im : InterruptMode)
    (handler : Option Handler) (d : Driver) : Option Driver :=
  match im with
  | .RTC_SECONDS_INTERRUPT =>
    (waitFinished hw fuel d.regs).map fun r =>
      let r := { r with RTC_CRH := r.RTC_CRH ||| RTC_CRH_SECIE }
      let r := { r with NVIC_EN0 := r.NVIC_EN0 ||| 2 ^ 3 }
      { d with regs := r, ISR_RTC_SEC := handler }
  | .RTC_ALARM_INTERRUPT =>
    (waitFinished hw fuel d.regs).map fun r =>
      let r := { r with RTC_CRH := r.RTC_CRH ||| RTC_CRH_ALRIE }
      let r := { r with NVIC_EN0 := r.NVIC_EN0 ||| 2 ^ 3 }
      { d with regs := r, ISR_RTC_ALR := handler }
  | .RTC_OVERFLOW_INTERRUPT =>
    (waitFinished hw fuel d.regs).map fun r =>
      let r := { r with RTC_CRH := r.RTC_CRH ||| RTC_CRH_OWIE }
      let r := { r with NVIC_EN0 := r.NVIC_EN0 ||| 2 ^ 3 }
      { d with regs := r, ISR_RTC_OW := handler }

/-- `detachInterrupt(InterruptMode im)`. -/
def detachInterrupt (hw : Regs → Regs) (fuel : Nat) (im : InterruptMode) (d : Driver) :
    Option Driver :=
  let r0 := { d.regs with NVIC_EN0 := clearBits d.regs.NVIC_EN0 (2 ^ 3) }
  match im with
  | .RTC_SECONDS_INTERRUPT =>
    (waitFinished hw fuel r0).map fun r =>
      let r := { r with RTC_CRH := clearBits r.RTC_CRH RTC_CRH_SECIE }
      { d with regs := r, ISR_RTC_SEC := none }
  | .RTC_ALARM_INTERRUPT =>
    (waitFinished hw fuel r0).map fun r =>
      let r := { r with RTC_CRH := clearBits r.RTC_CRH RTC_CRH_ALRIE }
      { d with regs := r, ISR_RTC_ALR := none }
  | .RTC_OVERFLOW_INTERRUPT =>
    (waitFinished hw fuel r0).map fun r =>
      let r := { r with RTC_CRH := clearBits r.RTC_CRH RTC_CRH_OWIE }
      { d with regs := r, ISR_RTC_OW := none }

/-- One dispatch statement of the shared interrupt routine,
`if ((irq & FLAG) == FLAG && SLOT != NULL) SLOT();`: the state is the registers
and the list of classes whose handler has been invoked so far. -/
def dispatch (irq flag : Nat) (slot : Option Handler) (im : InterruptMode)
    (s : Regs × List InterruptMode) : Regs × List InterruptMode :=
  if irq &&& flag = flag then
    match slot with
    | some handler => (handler s.1, s.2 ++ [im])
    | none => s
  else s

/-- The shared interrupt routine `RTC_IRQHandler` (`__irq_rtc` under libmaple):
the result is the driver state on return and the classes whose handler was
invoked, in order of invocation. -/
def RTC_IRQHandler (hw : Regs → Regs) (fuel : Nat) (d : Driver) :
    Option (Driver × List InterruptMode) :=
  let irq := (d.regs.RTC_CRH &&& d.regs.RTC_CRL) % 65536
  let s := dispatch irq RTC_CRL_SECF d.ISR_RTC_SEC .RTC_SECONDS_INTERRUPT (d.regs, [])
  let s := dispatch irq RTC_CRL_ALRF d.ISR_RTC_ALR .RTC_ALARM_INTERRUPT s
  let s := dispatch irq RTC_CRL_OWF d.ISR_RTC_OW .RTC_OVERFLOW_INTERRUPT s
  (waitFinished hw fuel s.1).map fun r =>
    ({ d with regs := { r with RTC_CRL := clearBits r.RTC_CRL irq } }, s.2)

/-- The bit position of an interrupt class: its enable bit in `RTC_CRH` and its
status flag in `RTC_CRL` sit at the same position. -/
def classBit : InterruptMode → Nat
  | .RTC_SECONDS_INTERRUPT => RTC_CRL_SECF_BIT
  | .RTC_ALARM_INTERRUPT => RTC_CRL_ALRF_BIT
  | .RTC_OVERFLOW_INTERRUPT => RTC_CRL_OWF_BIT

/-- The enable bit of an interrupt class in `RTC_CRH`. -/
def enableBit : InterruptMode → Nat
  | .RTC_SECONDS_INTERRUPT => RTC_CRH_SECIE
  | .RTC_ALARM_INTERRUPT => RTC_CRH_ALRIE
  | .RTC_OVERFLOW_INTERRUPT => RTC_CRH_OWIE

/-- The status flag of an interrupt class in `RTC_CRL`. -/
def flagBit : InterruptMode → Nat
  | .RTC_SECONDS_INTERRUPT => RTC_CRL_SECF
  | .RTC_ALARM_INTERRUPT => RTC_CRL_ALRF
  | .RTC_OVERFLOW_INTERRUPT => RTC_CRL_OWF

/-- The handler slot of an interrupt class. -/
def handlerSlot (d : Driver) : InterruptMode → Option Handler
  | .RTC_SECONDS_INTERRUPT => d.ISR_RTC_SEC
  | .RTC_ALARM_INTERRUPT => d.ISR_RTC_ALR
  | .RTC_OVERFLOW_INTERRUPT => d.ISR_RTC_OW

/-! ## Counter access layer -/

/-- `setTime(uint32_t time)`. -/
def setTime (b : Bsp) (hw : Regs → Regs) (fuel : Nat) (time : Nat) (r : Regs) :
    Option Regs := do
  let r := enableBackupWrites b r
  let r ← waitFinished hw fuel r
  let r := enterConfigMode r
  let r := { r with RTC_CNTH := time >>> 16 }
  let r := { r with RTC_CNTL := time &&& 65535 }
  let r := exitConfigMode r
  let r ← waitFinished hw fuel r
  pure (disableBackupWrites b r)

/-- `getTime()`: the returned pair is the counter value and the registers after
the last read.  The counter runs while it is read, so the hardware moves the
registers by `hw` between two successive reads. -/
def getTime (hw : Regs → Regs) (r : Regs) : Nat × Regs :=
  let high1 := r.RTC_CNTH % 65536
  let r := hw r
  let low := r.RTC_CNTL % 65536
  let r := hw r
  let high2 := r.RTC_CNTH % 65536
  if high1 ≠ high2 then
    let r := hw r
    let low := r.RTC_CNTL % 65536
    let high1 := high2
    (((high1 <<< 16) ||| low) % 4294967296, r)
  else
    (((high1 <<< 16) ||| low) % 4294967296, r)

/-- `setAlarmTime(uint32_t time)`. -/
def setAlarmTime (b : Bsp) (hw : Regs → Regs) (fuel : Nat) (time : Nat) (r : Regs) :
    Option Regs := do
  let r := enableBackupWrites b r
  let r ← waitFinished hw fuel r
  let r := enterConfigMode r
  let r := { r with RTC_ALRH := time >>> 16 }
  let r := { r with RTC_ALRL := time &&& 65535 }
  let r := exitConfigMode r
  let r ← waitFinished hw fuel r
  pure (disableBackupWrites b r)

/-! ## Backup register store -/

/-- `getBackupRegister(uint8_t idx)`; `extendedBackup` selects the branch of the
`#if`, where `idx += 5` is an 8-bit addition. -/
def getBackupRegister (b : Bsp) (idx : Nat) (r : Regs) : Nat :=
  if b.extendedBackup then
    let idx := if idx > 10 then (idx + 5) % 256 else idx
    if 1 ≤ idx ∧ idx ≤ 47 then r.BKP_DR idx % 65536 else 0
  else
    if 1 ≤ idx ∧ idx ≤ 10 then r.BKP_DR idx % 65536 else 0

/-- The body of `setBackupRegister` once the index is accepted. -/
def writeBackup (b : Bsp) (idx val : Nat) (r : Regs) : Bool × Regs :=
  let r := enableBackupWrites b r
  let r := { r with BKP_DR := Function.update r.BKP_DR idx val }
  (true, disableBackupWrites b r)

/-- `setBackupRegister(uint8_t idx, uint16_t val)`: the returned pair is the
result and the registers after the call. -/
def setBackupRegister (b : Bsp) (idx val : Nat) (r : Regs) : Bool × Regs :=
  if b.extendedBackup then
    let idx := if idx > 10 then (idx + 5) % 256 else idx
    if 1 ≤ idx ∧ idx ≤ 47 then writeBackup b idx val r else (false, r)
  else
    if 1 ≤ idx ∧ idx ≤ 10 then writeBackup b idx val r else (false, r)

/-! ## Inline helpers of the header and sample configurations -/

/-- `clearSecondFlag()`. -/
def clearSecondFlag (r : Regs) : Regs :=
  { r with RTC_CRL := clearBits r.RTC_CRL RTC_CRL_SECF }

/-- The board-support constants of the STM32F103 device header, base backup
variant. -/
def f103 : Bsp :=
  { PWR_CR_DBP := 256
    RCC_APB1ENR_PWREN := 268435456
    RCC_APB1ENR_BKPEN := 134217728
    RCC_BDCR_BDRST := 65536
    RCC_BDCR_LSEON := 1
    RCC_BDCR_LSERDY := 2
    RCC_BDCR_RTCSEL_LSE := 256
    RCC_BDCR_RTCEN := 32768
    extendedBackup := false }

/-- Registers of an initialized, idle device: `RTOFF` and `RSF` set, no
interrupt enabled, the initialized flag set in backup slot 1. -/
def idleRegs : Regs :=
  { RTC_CRH := 0
    RTC_CRL := 40
    RTC_PRLL := 32767
    RTC_DIVH := 0
    RTC_DIVL := 0
    RTC_CNTH := 0
    RTC_CNTL := 65535
    RTC_ALRH := 0
    RTC_ALRL := 0
    RCC_APB1ENR := 0
    RCC_BDCR := 0
    PWR_CR := 0
    NVIC_EN0 := 0
    BKP_DR := fun i => if i = 1 then 1 else 0 }

/-- Hardware that completes a synchronisation or a write within one poll: it
sets `RSF` and `RTOFF`. -/
def readyHw (r : Regs) : Regs :=
  { r with RTC_CRL := r.RTC_CRL ||| (RTC_CRL_RSF ||| RTC_CRL_RTOFF) }

/-- Counter hardware that advances the 32-bit counter by one between two
reads. -/
def tickHw (r : Regs) : Regs :=
  if r.RTC_CNTL % 65536 = 65535 then
    { r with RTC_CNTH := (r.RTC_CNTH + 1) % 65536, RTC_CNTL := 0 }
  else { r with RTC_CNTL := r.RTC_CNTL + 1 }

/-- A driver state with the seconds interrupt enabled and pending (`SECF` and
`RTOFF` set in the status register) and no handler registered. -/
def pendingNoHandler : Driver :=
  { regs := { idleRegs with RTC_CRH := 1, RTC_CRL := 33 }
    ISR_RTC_SEC := none
    ISR_RTC_ALR := none
    ISR_RTC_OW := none }

/-- A driver state with the seconds and alarm interrupts enabled, both pending,
and a seconds handler that leaves the registers alone. -/
def attachedSeconds : Driver :=
  { regs := { idleRegs with RTC_CRH := 3, RTC_CRL := 35, NVIC_EN0 := 8 }
    ISR_RTC_SEC := some fun r => r
    ISR_RTC_ALR := none
    ISR_RTC_OW := none }

/-- A sample input date, 5 January 2000. -/
def sampleDate : DateVar :=
  { numberOfDays := 0, year := 2000, month := 1, day := 5, weekday := 0, isLeapYear := false }

/-- A sample input time, 12:30:15. -/
def sampleTime : TimeVar := { hours := 12, minutes := 30, seconds := 15 }

/-- `getMilliseconds()`.  `(float)(32767 - ms)` rounds the 32-bit difference to
binary32 (`roundF32` rounds to 24 significant bits whatever the unit); the
division by `32768.0` and the product with `1000.0` are evaluated in `double`,
where both are exact for a binary32 operand, so the value truncated by
`(uint16_t)` is `f * 1000 / 32768`.  Where it does not fit `uint16_t`
(undefined in the source) the embedding wraps. -/
def getMilliseconds (r : Regs) : Nat :=
  let ms := ((r.RTC_DIVH <<< 16) ||| r.RTC_DIVL) % 4294967296
  let f : Int := roundF32 (u32 (32767 - (ms : Int)))
  u16 (Int.tdiv (f * 1000) 32768)

/-- The board-support constants of the STM32F103 device header, extended backup
variant (42 backup registers). -/
def f103Extended : Bsp := { f103 with extendedBackup := true }

/-! ## Arithmetic of the conversions -/

theorem roundF32_of_small (q : Int) (h : q.natAbs < 16777216) : roundF32 q = q := by
  unfold roundF32
  simp only [h, if_true]

theorem u16_of_lt (x : Int) (h0 : 0 ≤ x) (h1 : x < 65536) : u16 x = x.toNat := by
  unfold u16
  rw [Int.emod_eq_of_lt h0 h1]

theorem u16_natCast (n : Nat) (h : n < 65536) : u16 (n : Int) = n := by
  rw [u16_of_lt _ (by omega) (by omega)]
  omega

theorem i16_of_small (x : Int) (h0 : -32768 ≤ x) (h1 : x < 32768) : i16 x = x := by
  unfold i16
  rw [Int.emod_eq_of_lt (by omega) (by omega)]
  omega

theorem getSumOfDayFromYearValue_eq (y : Nat) (h1 : 1970 ≤ y) (h2 : y ≤ 2106) :
    getSumOfDayFromYearValue y
      = if 2100 < y then ((y - 1970) * 1461 - 1) / 4 else ((y - 1970) * 1461 + 1) / 4 := by
  unfold getSumOfDayFromYearValue
  have hr : roundF32 (((y : Int) - 1970) * 1461 + 1) = ((y : Int) - 1970) * 1461 + 1 :=
    roundF32_of_small _ (by omega)
  have hr2 : roundF32 (((y : Int) - 1970) * 1461 + 1 - 2) = ((y : Int) - 1970) * 1461 + 1 - 2 :=
    roundF32_of_small _ (by omega)
  simp only [hr, hr2]
  by_cases hy : 2100 < y
  · simp only [gt_iff_lt, hy, if_true]
    rw [Int.tdiv_eq_ediv (by omega) (by omega), u16_of_lt _ (by omega) (by omega)]
    omega
  · simp only [gt_iff_lt, hy, if_false]
    rw [Int.tdiv_eq_ediv (by omega) (by omega), u16_of_lt _ (by omega) (by omega)]
    omega

theorem leapYearOf_eq (y : Nat) (h : 1968 ≤ y) :
    leapYearOf y = (decide ((y - 1968) % 4 = 0) && decide (y ≠ 2100)) := by
  unfold leapYearOf
  rw [Int.tmod_eq_emod (by omega) (by omega)]
  by_cases h4 : (y - 1968) % 4 = 0 <;> by_cases h21 : y = 2100 <;> simp [h4, h21] <;> omega


theorem getNumberOfDaysUntilMonth_zero (l : Bool) : getNumberOfDaysUntilMonth ((0 : Nat) : Int) l = 0 := by
  cases l <;> decide

theorem getNumberOfDaysUntilMonth_le (i : Nat) (h : i < 12) (l : Bool) :
    getNumberOfDaysUntilMonth (i : Int) l ≤ 335 := by
  interval_cases i <;> cases l <;> decide

theorem monthLoop_some (l : Bool) (sod : Nat) (hs : sod < 32000) :
    ∀ n : Nat, 0 < n → n ≤ 12 →
      ∃ i : Nat, i < n ∧ getNumberOfDaysUntilMonth (i : Int) l ≤ sod
        ∧ (∀ j : Nat, i < j → j < n → sod < getNumberOfDaysUntilMonth (j : Int) l)
        ∧ monthLoop l sod n
            = some ((sod : Int) - getNumberOfDaysUntilMonth (i : Int) l + 1, (i : Int) + 1) := by
  intro n
  induction n with
  | zero => intro h; omega
  | succ k ih =>
    intro _ hk
    have hle := getNumberOfDaysUntilMonth_le k (by omega) l
    by_cases hd : getNumberOfDaysUntilMonth (k : Int) l ≤ sod
    · refine ⟨k, by omega, hd, fun j h1 h2 => by omega, ?_⟩
      simp only [monthLoop, hd, if_true]
      rw [i16_of_small _ (by omega) (by omega), i16_of_small _ (by omega) (by omega)]
    · have hk0 : 0 < k := by
        rcases Nat.eq_zero_or_pos k with h0 | h0
        · subst h0
          rw [getNumberOfDaysUntilMonth_zero] at hd
          omega
        · exact h0
      obtain ⟨i, hi, hdi, hmax, hres⟩ := ih hk0 (by omega)
      refine ⟨i, by omega, hdi, ?_, ?_⟩
      · intro j h1 h2
        by_cases hjk : j = k
        · subst hjk; omega
        · exact hmax j h1 (by omega)
      · simp only [monthLoop, hd, if_false]
        exact hres


/-- The year chosen by `epochToDate` for day count `n`, and its day offset. -/
theorem year_estimate (n : Nat) (hn : n ≤ 49710) :
    ∃ y : Nat, 1970 ≤ y ∧ y ≤ 2106 ∧ getSumOfDayFromYearValue y ≤ n
      ∧ n - getSumOfDayFromYearValue y ≤ 366
      ∧ (if getSumOfDayFromYearValue (n / 365 + 1970) > n
          then u16 (((n / 365 + 1970 : Nat) : Int) - 1) else n / 365 + 1970) = y
      ∧ (if getSumOfDayFromYearValue (n / 365 + 1970) > n
          then getSumOfDayFromYearValue y
          else getSumOfDayFromYearValue (n / 365 + 1970)) = getSumOfDayFromYearValue y := by
  have e0 := getSumOfDayFromYearValue_eq (n / 365 + 1970) (by omega) (by omega)
  by_cases hgt : getSumOfDayFromYearValue (n / 365 + 1970) > n
  · have hpos : 1 ≤ n / 365 := by
      rcases Nat.eq_zero_or_pos (n / 365) with h0 | h0
      · rw [h0] at e0 hgt
        have e2 : getSumOfDayFromYearValue (0 + 1970) = 0 := by rw [e0]; decide
        omega
      · exact h0
    have e1 := getSumOfDayFromYearValue_eq (n / 365 + 1970 - 1) (by omega) (by omega)
    have hu : u16 (((n / 365 + 1970 : Nat) : Int) - 1) = n / 365 + 1970 - 1 := by
      rw [u16_of_lt _ (by omega) (by omega)]
      omega
    refine ⟨n / 365 + 1970 - 1, by omega, by omega, ?_, ?_, ?_, ?_⟩
    · rw [e1]; split <;> omega
    · rw [e1]; rw [e0] at hgt; split at hgt <;> split <;> omega
    · simp only [hgt, if_true, hu]
    · simp only [hgt, if_true]
  · refine ⟨n / 365 + 1970, by omega, by omega, by omega, ?_, ?_, ?_⟩
    · rw [e0]; split <;> omega
    · simp only [hgt, if_false]
    · simp only [hgt, if_false]


theorem epochToDate_spec (e : Nat) (he : e < 4294967296) (d0 : DateVar) :
    ∃ i : Nat, i < 12
      ∧ (epochToDate e d0).numberOfDays = e / 86400
      ∧ 1970 ≤ (epochToDate e d0).year ∧ (epochToDate e d0).year ≤ 2106
      ∧ (epochToDate e d0).isLeapYear = leapYearOf (epochToDate e d0).year
      ∧ getSumOfDayFromYearValue (epochToDate e d0).year ≤ e / 86400
      ∧ e / 86400 - getSumOfDayFromYearValue (epochToDate e d0).year ≤ 366
      ∧ getNumberOfDaysUntilMonth (i : Int) (epochToDate e d0).isLeapYear
          ≤ e / 86400 - getSumOfDayFromYearValue (epochToDate e d0).year
      ∧ (∀ j : Nat, i < j → j < 12 →
          e / 86400 - getSumOfDayFromYearValue (epochToDate e d0).year
            < getNumberOfDaysUntilMonth (j : Int) (epochToDate e d0).isLeapYear)
      ∧ (epochToDate e d0).month = (i : Int) + 1
      ∧ (epochToDate e d0).day
          = ((e / 86400 - getSumOfDayFromYearValue (epochToDate e d0).year : Nat) : Int)
            - getNumberOfDaysUntilMonth (i : Int) (epochToDate e d0).isLeapYear + 1 := by
  have hn : e / 86400 ≤ 49710 := by omega
  obtain ⟨y, hy1, hy2, hs1, hs2, hyear, hsod⟩ := year_estimate (e / 86400) hn
  have h1 : u16 ((e / 86400 : Nat) : Int) = e / 86400 := u16_natCast _ (by omega)
  have h2 : u16 (((e / 86400 / 365 : Nat) : Int) + 1970) = e / 86400 / 365 + 1970 := by
    rw [u16_of_lt _ (by omega) (by omega)]
    omega
  have h3 : u16 (((e / 86400 : Nat) : Int) - (getSumOfDayFromYearValue y : Nat))
      = e / 86400 - getSumOfDayFromYearValue y := by
    rw [u16_of_lt _ (by omega) (by omega)]
    omega
  obtain ⟨i, hi, hdi, hmax, hres⟩ :=
    monthLoop_some (leapYearOf y) (e / 86400 - getSumOfDayFromYearValue y) (by omega) 12
      (by omega) (by omega)
  have hY : (epochToDate e d0).year = y := by
    simp only [epochToDate, h1, h2]
    exact hyear
  have hL : (epochToDate e d0).isLeapYear = leapYearOf y := by
    simp only [epochToDate, h1, h2, hyear]
  have hDM : (epochToDate e d0).month = (i : Int) + 1 ∧ (epochToDate e d0).day
      = ((e / 86400 - getSumOfDayFromYearValue y : Nat) : Int)
        - getNumberOfDaysUntilMonth (i : Int) (leapYearOf y) + 1 := by
    simp only [epochToDate, h1, h2, hyear, hsod, h3, DECEMBER, hres, Option.getD_some]
    exact ⟨trivial, trivial⟩
  have hN : (epochToDate e d0).numberOfDays = e / 86400 := by
    simp only [epochToDate, h1]
  rw [hY, hL, hN]
  exact ⟨i, hi, rfl, hy1, hy2, rfl, hs1, hs2, hdi, hmax, hDM.1, hDM.2⟩


theorem epochToTime_spec (e : Nat) (t0 : TimeVar) :
    (epochToTime e t0).hours = ((e % 86400 / 3600 : Nat) : Int)
      ∧ (epochToTime e t0).minutes = ((e % 86400 % 3600 / 60 : Nat) : Int)
      ∧ (epochToTime e t0).seconds = ((e % 86400 % 3600 % 60 : Nat) : Int) := by
  simp only [epochToTime]
  refine ⟨?_, ?_, ?_⟩ <;> rw [i16_of_small _ (by omega) (by omega)]

theorem dateTimeToEpoch_fst_of_normal (d : DateVar) (t : TimeVar)
    (hm1 : 1 ≤ d.month) (hm2 : d.month ≤ 12) (hy1 : 1970 ≤ d.year) (hy2 : d.year ≤ 2105) :
    (dateTimeToEpoch d t).1
      = u32 ((u16 ((getSumOfDayFromYearValue d.year : Int)
                + getNumberOfDaysUntilMonth (d.month - 1) (leapYearOf d.year)
                + d.day - 1) : Int) * 86400
              + t.hours * 3600 + t.minutes * 60 + t.seconds) := by
  have hpos : d.month > 0 := by omega
  have hq : Int.tdiv (d.month - 1) 12 = 0 := Int.tdiv_eq_zero_of_lt (by omega) (by omega)
  have hr : Int.tmod (d.month - 1) 12 = d.month - 1 := Int.tmod_eq_of_lt (by omega) (by omega)
  have hyr : u16 ((d.year : Int) + 0) = d.year := by
    rw [Int.add_zero]
    exact u16_natCast _ (by omega)
  have hmo : i16 (d.month - 1 + 1) = d.month := by
    rw [i16_of_small _ (by omega) (by omega)]
    omega
  have hc1 : ¬ d.year < 1970 := by omega
  have hc2 : ¬ d.year > 2105 := by omega
  simp only [dateTimeToEpoch, hpos, if_true, hq, hr, hyr, hmo, hc1, hc2, if_false]

/-- C1. Gregorian round trip: for every 32-bit epoch `e` whose `epochToDate`
year is at most 2105, `dateTimeToEpoch` applied to the `DateVar` written by
`epochToDate(e)` and the `TimeVar` written by `epochToTime(e)` returns `e`
(whatever the two structures held before the conversions). -/
theorem gregorian_round_trip (e : Nat) (he : e < 4294967296) (d0 : DateVar) (t0 : TimeVar)
    (hy : (epochToDate e d0).year ≤ 2105) :
    (dateTimeToEpoch (epochToDate e d0) (epochToTime e t0)).1 = e := by
  obtain ⟨i, hi, hN, hy1, _, hL, hs1, hs2, hdi, _, hM, hD⟩ := epochToDate_spec e he d0
  obtain ⟨hH, hMi, hS⟩ := epochToTime_spec e t0
  rw [dateTimeToEpoch_fst_of_normal _ _ (by omega) (by omega) hy1 hy, hM, hD, hH, hMi, hS, ← hL]
  have hidx : (i : Int) + 1 - 1 = (i : Int) := by omega
  rw [hidx]
  have hnd : u16 ((getSumOfDayFromYearValue (epochToDate e d0).year : Int)
        + getNumberOfDaysUntilMonth (i : Int) (epochToDate e d0).isLeapYear
        + (((e / 86400 - getSumOfDayFromYearValue (epochToDate e d0).year : Nat) : Int)
            - getNumberOfDaysUntilMonth (i : Int) (epochToDate e d0).isLeapYear + 1) - 1)
      = e / 86400 := by
    rw [u16_of_lt _ (by omega) (by omega)]
    omega
  rw [hnd]
  unfold u32
  omega

/-- The round trip at the last second of 2105, the last epoch whose year is at
most 2105. -/
theorem gregorian_round_trip_witness :
    (epochToDate 4291747199 ⟨0, 0, 0, 0, 0, false⟩).year ≤ 2105
      ∧ (dateTimeToEpoch (epochToDate 4291747199 ⟨0, 0, 0, 0, 0, false⟩)
          (epochToTime 4291747199 ⟨0, 0, 0⟩)).1 = 4291747199 :=
  ⟨by decide, gregorian_round_trip 4291747199 (by decide) _ _ (by decide)⟩


theorem monthLoop_ne_none (l : Bool) (sod : Nat) :
    ∀ n : Nat, 0 < n → ∃ p, monthLoop l sod n = some p := by
  intro n
  induction n with
  | zero => intro h; omega
  | succ k ih =>
    intro _
    by_cases hd : getNumberOfDaysUntilMonth (k : Int) l ≤ sod
    · simp only [monthLoop, hd, if_true]
      exact ⟨_, rfl⟩
    · have hk0 : 0 < k := by
        rcases Nat.eq_zero_or_pos k with h0 | h0
        · subst h0
          rw [getNumberOfDaysUntilMonth_zero] at hd
          omega
        · exact h0
      obtain ⟨p, hp⟩ := ih hk0
      simp only [monthLoop, hd, if_false]
      exact ⟨p, hp⟩

theorem epochToDate_indep (time : Nat) (d1 d2 : DateVar) :
    epochToDate time d1 = epochToDate time d2 := by
  have key : ∀ (l : Bool) (sod : Nat),
      (monthLoop l sod (DECEMBER + 1)).getD (d1.day, d1.month)
        = (monthLoop l sod (DECEMBER + 1)).getD (d2.day, d2.month) := by
    intro l sod
    obtain ⟨p, hp⟩ := monthLoop_ne_none l sod (DECEMBER + 1) (by decide)
    rw [hp]
    rfl
  simp only [epochToDate, key]

/-- C2. At epoch 4197052800 (day 48577) `epochToDate` writes year 2102,
month 12, day 32 with `isLeapYear` false: a day past the end of December of a
year the same call reports as a common year. -/
theorem epochToDate_december_32 : ∀ d0 : DateVar, (epochToDate 4197052800 d0).year = 2102
      ∧ (epochToDate 4197052800 d0).month = 12
      ∧ (epochToDate 4197052800 d0).day = 32
      ∧ (epochToDate 4197052800 d0).isLeapYear = false := by
  intro d0
  rw [epochToDate_indep 4197052800 d0 ⟨0, 0, 0, 0, 0, false⟩]
  decide


/-! ## Month normalization -/

theorem normalize_month (y : Nat) (m k : Int) (hm1 : 1 ≤ m) (hm2 : m ≤ 12) :
    (if m + 12 * k > 0 then u16 ((y : Int) + Int.tdiv (m + 12 * k - 1) 12)
      else u16 ((y : Int) - (1 - Int.tdiv (m + 12 * k) 12))) = u16 ((y : Int) + k)
    ∧ (if m + 12 * k > 0 then i16 (Int.tmod (m + 12 * k - 1) 12 + 1)
      else i16 (12 + Int.tmod (m + 12 * k) 12)) = m := by
  by_cases hpos : m + 12 * k > 0
  · have hq : Int.tdiv (m + 12 * k - 1) 12 = k := by
      rw [Int.tdiv_eq_ediv (by omega) (by omega)]
      omega
    have hr : Int.tmod (m + 12 * k - 1) 12 = m - 1 := by
      rw [Int.tmod_def, hq]
      omega
    simp only [hpos, if_true, hq, hr]
    exact ⟨trivial, by rw [i16_of_small _ (by omega) (by omega)]; omega⟩
  · have hq : Int.tdiv (m + 12 * k) 12 = k + 1 := by
      have h1 : m + 12 * k = -(-(m + 12 * k)) := by omega
      rw [h1, Int.neg_tdiv, Int.tdiv_eq_ediv (by omega) (by omega)]
      omega
    have hr : Int.tmod (m + 12 * k) 12 = m - 12 := by
      rw [Int.tmod_def, hq]
      omega
    simp only [hpos, if_false, hq, hr]
    refine ⟨?_, by rw [i16_of_small _ (by omega) (by omega)]; omega⟩
    congr 1
    omega

theorem dateTimeToEpoch_congr (d1 d2 : DateVar) (t : TimeVar)
    (hy : (if d1.month > 0 then u16 ((d1.year : Int) + Int.tdiv (d1.month - 1) 12)
            else u16 ((d1.year : Int) - (1 - Int.tdiv d1.month 12)))
          = (if d2.month > 0 then u16 ((d2.year : Int) + Int.tdiv (d2.month - 1) 12)
            else u16 ((d2.year : Int) - (1 - Int.tdiv d2.month 12))))
    (hm : (if d1.month > 0 then i16 (Int.tmod (d1.month - 1) 12 + 1)
            else i16 (12 + Int.tmod d1.month 12))
          = (if d2.month > 0 then i16 (Int.tmod (d2.month - 1) 12 + 1)
            else i16 (12 + Int.tmod d2.month 12)))
    (hd : d1.day = d2.day) :
    dateTimeToEpoch d1 t = dateTimeToEpoch d2 t := by
  simp only [dateTimeToEpoch, hy, hm, hd]
  exact Prod.ext rfl (Prod.ext (epochToDate_indep _ _ _) rfl)

/-- C3. Month normalization of `dateTimeToEpoch`: for every input date `d`
(16-bit year) and time `t`, month 13 of year `y` gives the same epoch and the
same output date and time as month 1 of year `y + 1`, month 0 of year `y` the
same as month 12 of year `y - 1` (the year taken as `uint16_t`), and for every
month `m` in 1..12 and integer `k`, with `y + k` a `uint16_t` value, month
`m + 12 k` of year `y` the same as month `m` of year `y + k`, non-positive
`m + 12 k` included. -/
theorem month_normalization (d : DateVar) (t : TimeVar) :
    dateTimeToEpoch { d with month := 13 } t
        = dateTimeToEpoch { d with year := u16 ((d.year : Int) + 1), month := 1 } t
      ∧ dateTimeToEpoch { d with month := 0 } t
        = dateTimeToEpoch { d with year := u16 ((d.year : Int) - 1), month := 12 } t
      ∧ ∀ m k : Int, 1 ≤ m → m ≤ 12 → -32768 ≤ m + 12 * k → m + 12 * k ≤ 32767 →
          0 ≤ (d.year : Int) + k → (d.year : Int) + k < 65536 →
          dateTimeToEpoch { d with month := m + 12 * k } t
            = dateTimeToEpoch { d with year := ((d.year : Int) + k).toNat, month := m } t := by
  have gen : ∀ m k : Int, 1 ≤ m → m ≤ 12 →
      dateTimeToEpoch { d with month := m + 12 * k } t
        = dateTimeToEpoch { d with year := u16 ((d.year : Int) + k), month := m } t := by
    intro m k hm1 hm2
    obtain ⟨hy, hm⟩ := normalize_month d.year m k hm1 hm2
    obtain ⟨hy0, hm0⟩ := normalize_month (u16 ((d.year : Int) + k)) m 0 hm1 hm2
    simp only [Int.mul_zero, Int.add_zero] at hy0 hm0
    have hu : u16 ((u16 ((d.year : Int) + k) : Nat) : Int) = u16 ((d.year : Int) + k) := by
      unfold u16
      omega
    apply dateTimeToEpoch_congr
    · show _ = _
      simp only []
      rw [hy, hy0, hu]
    · show _ = _
      simp only []
      rw [hm, hm0]
    · rfl
  refine ⟨?_, ?_, ?_⟩
  · have h := gen 1 1 (by omega) (by omega)
    exact h
  · have h := gen 12 (-1) (by omega) (by omega)
    exact h
  · intro m k hm1 hm2 _ _ h0 h1
    rw [gen m k hm1 hm2, u16_of_lt _ h0 h1]

/-! ## Counter read and backup registers -/

theorem shiftLeft16_or (h l : Nat) (hh : h < 65536) (hl : l < 65536) :
    ((h <<< 16) ||| l) % 4294967296 = h * 65536 + l := by
  have e : h <<< 16 ||| l = 2 ^ 16 * h + l := by
    rw [Nat.shiftLeft_eq, Nat.mul_comm h (2 ^ 16)]
    exact (Nat.mul_add_lt_is_or (by omega) h).symm
  rw [e]
  omega

/-- C4. Rollover-safe counter read: with `h1`, `l1`, `h2`, `l2` the 16-bit
values of the successive reads of `RTC_CNTH`, `RTC_CNTL`, `RTC_CNTH` and
`RTC_CNTL`, `getTime` returns `h1 * 65536 + l1` after three reads when
`h1 = h2`, and `h2 * 65536 + l2` after the fourth read when `h1 ≠ h2`: the low
half read before the change is never paired with either high half. -/
theorem getTime_rollover_safe (hw : Regs → Regs) (r : Regs) :
    (r.RTC_CNTH % 65536 = (hw (hw r)).RTC_CNTH % 65536 →
        getTime hw r
          = (r.RTC_CNTH % 65536 * 65536 + (hw r).RTC_CNTL % 65536, hw (hw r)))
      ∧ (r.RTC_CNTH % 65536 ≠ (hw (hw r)).RTC_CNTH % 65536 →
        getTime hw r
          = ((hw (hw r)).RTC_CNTH % 65536 * 65536 + (hw (hw (hw r))).RTC_CNTL % 65536,
              hw (hw (hw r)))) := by
  constructor
  · intro h
    simp only [getTime, h, ne_eq, not_true_eq_false, if_false]
    rw [shiftLeft16_or _ _ (Nat.mod_lt _ (by decide)) (Nat.mod_lt _ (by decide))]
  · intro h
    simp only [getTime, ne_eq, h, not_false_eq_true, if_true]
    rw [shiftLeft16_or _ _ (Nat.mod_lt _ (by decide)) (Nat.mod_lt _ (by decide))]

/-- C5. In the extended build, index 252 is accepted: `idx += 5` wraps the
8-bit index to 1, so `setBackupRegister(252, v)` returns true and stores `v` in
backup slot 1, and `getBackupRegister(252)` returns the content of slot 1. -/
theorem extended_backup_index_252 (b : Bsp) (v : Nat) (r : Regs) :
    (setBackupRegister { b with extendedBackup := true } 252 v r).1 = true
      ∧ (setBackupRegister { b with extendedBackup := true } 252 v r).2.BKP_DR 1 = v
      ∧ getBackupRegister { b with extendedBackup := true } 252 r = r.BKP_DR 1 % 65536 := by
  refine ⟨?_, ?_, ?_⟩
  · simp [setBackupRegister, writeBackup]
  · simp [setBackupRegister, writeBackup, disableBackupWrites, enableBackupWrites]
  · simp [getBackupRegister]

/-- C6. Base-variant backup index range: in the non-extended build, for every
index outside 1..10 and every value, `setBackupRegister` returns false and
leaves all registers (every backup slot and `PWR_CR` with its write-access bit)
as they were, and `getBackupRegister` returns 0; for every index in 1..10
`setBackupRegister` returns true. -/
theorem base_backup_index_range (b : Bsp) (idx v : Nat) (r : Regs) :
    (¬ (1 ≤ idx ∧ idx ≤ 10) →
        setBackupRegister { b with extendedBackup := false } idx v r = (false, r)
          ∧ getBackupRegister { b with extendedBackup := false } idx r = 0)
      ∧ (1 ≤ idx ∧ idx ≤ 10 →
        (setBackupRegister { b with extendedBackup := false } idx v r).1 = true) := by
  constructor
  · intro h
    simp [setBackupRegister, getBackupRegister, h]
  · intro h
    simp [setBackupRegister, writeBackup, h]

/-! ## The initialized flag -/

theorem waitWhile_invariant (hw : Regs → Regs) (busy : Regs → Bool) (P : Regs → Prop)
    (hP : ∀ r, P r → P (hw r)) :
    ∀ (fuel : Nat) (r r' : Regs), P r → waitWhile hw busy fuel r = some r' → P r' := by
  intro fuel
  induction fuel with
  | zero =>
    intro r r' _ h
    simp [waitWhile] at h
  | succ n ih =>
    intro r r' hr h
    simp only [waitWhile] at h
    split at h
    · exact ih (hw r) r' (hP r hr) h
    · cases h
      exact hr

theorem waitFinished_invariant (hw : Regs → Regs) (P : Regs → Prop)
    (hP : ∀ r, P r → P (hw r)) (fuel : Nat) (r r' : Regs) (hr : P r)
    (h : waitFinished hw fuel r = some r') : P r' :=
  waitWhile_invariant hw _ P hP fuel r r' hr h

theorem waitSync_invariant (hw : Regs → Regs) (P : Regs → Prop)
    (hP : ∀ r, P r → P (hw r)) (fuel : Nat) (r r' : Regs)
    (hr : P { r with RTC_CRL := clearBits r.RTC_CRL RTC_CRL_RSF })
    (h : waitSync hw fuel r = some r') : P r' :=
  waitWhile_invariant hw _ P hP fuel _ r' hr h

theorem setTime_initialized (b : Bsp) (hw : Regs → Regs) (fuel time : Nat) (r r' : Regs)
    (hhw : ∀ r, isInitialized r = true → isInitialized (hw r) = true)
    (hr : isInitialized r = true) (h : setTime b hw fuel time r = some r') :
    isInitialized r' = true := by
  simp only [setTime, Option.bind_eq_bind, Option.bind_eq_some, Option.pure_def,
    Option.some.injEq] at h
  obtain ⟨r1, h1, r2, h2, h3⟩ := h
  have p1 : isInitialized r1 = true := by
    refine waitFinished_invariant hw (fun r => isInitialized r = true) hhw fuel _ r1 ?_ h1
    exact hr
  have p2 : isInitialized r2 = true := by
    refine waitFinished_invariant hw (fun r => isInitialized r = true) hhw fuel _ r2 ?_ h2
    exact p1
  rw [← h3]
  exact p2

theorem setAlarmTime_initialized (b : Bsp) (hw : Regs → Regs) (fuel time : Nat) (r r' : Regs)
    (hhw : ∀ r, isInitialized r = true → isInitialized (hw r) = true)
    (hr : isInitialized r = true) (h : setAlarmTime b hw fuel time r = some r') :
    isInitialized r' = true := by
  simp only [setAlarmTime, Option.bind_eq_bind, Option.bind_eq_some, Option.pure_def,
    Option.some.injEq] at h
  obtain ⟨r1, h1, r2, h2, h3⟩ := h
  have p1 : isInitialized r1 = true := by
    refine waitFinished_invariant hw (fun r => isInitialized r = true) hhw fuel _ r1 ?_ h1
    exact hr
  have p2 : isInitialized r2 = true := by
    refine waitFinished_invariant hw (fun r => isInitialized r = true) hhw fuel _ r2 ?_ h2
    exact p1
  rw [← h3]
  exact p2

theorem attachInterrupt_initialized (hw : Regs → Regs) (fuel : Nat) (im : InterruptMode)
    (handler : Option Handler) (d d' : Driver)
    (hhw : ∀ r, isInitialized r = true → isInitialized (hw r) = true)
    (hr : isInitialized d.regs = true) (h : attachInterrupt hw fuel im handler d = some d') :
    isInitialized d'.regs = true := by
  cases im <;>
  · simp only [attachInterrupt, Option.map_eq_some'] at h
    obtain ⟨r1, h1, h2⟩ := h
    have p1 : isInitialized r1 = true :=
      waitFinished_invariant hw (fun r => isInitialized r = true) hhw fuel _ r1 hr h1
    rw [← h2]
    exact p1

theorem detachInterrupt_initialized (hw : Regs → Regs) (fuel : Nat) (im : InterruptMode)
    (d d' : Driver)
    (hhw : ∀ r, isInitialized r = true → isInitialized (hw r) = true)
    (hr : isInitialized d.regs = true) (h : detachInterrupt hw fuel im d = some d') :
    isInitialized d'.regs = true := by
  cases im <;>
  · simp only [detachInterrupt, Option.map_eq_some'] at h
    obtain ⟨r1, h1, h2⟩ := h
    have p1 : isInitialized r1 = true := by
      refine waitFinished_invariant hw (fun r => isInitialized r = true) hhw fuel _ r1 ?_ h1
      exact hr
    rw [← h2]
    exact p1

theorem dispatch_invariant (P : Regs → Prop) (irq flag : Nat) (slot : Option Handler)
    (im : InterruptMode) (s : Regs × List InterruptMode)
    (hh : ∀ h, slot = some h → ∀ r, P r → P (h r)) (hs : P s.1) :
    P (dispatch irq flag slot im s).1 := by
  unfold dispatch
  split
  · cases slot with
    | none => exact hs
    | some h => exact hh h rfl _ hs
  · exact hs

theorem RTC_IRQHandler_initialized (hw : Regs → Regs) (fuel : Nat) (d d' : Driver)
    (log : List InterruptMode)
    (hhw : ∀ r, isInitialized r = true → isInitialized (hw r) = true)
    (hh : ∀ k h, handlerSlot d k = some h →
      ∀ r, isInitialized r = true → isInitialized (h r) = true)
    (hr : isInitialized d.regs = true) (h : RTC_IRQHandler hw fuel d = some (d', log)) :
    isInitialized d'.regs = true := by
  simp only [RTC_IRQHandler, Option.map_eq_some', Prod.mk.injEq] at h
  obtain ⟨r1, h1, h2, _⟩ := h
  have p1 : isInitialized r1 = true := by
    refine waitFinished_invariant hw (fun r => isInitialized r = true) hhw fuel _ r1 ?_ h1
    apply dispatch_invariant (fun r => isInitialized r = true) _ _ _ _ _
      (hh .RTC_OVERFLOW_INTERRUPT)
    apply dispatch_invariant (fun r => isInitialized r = true) _ _ _ _ _
      (hh .RTC_ALARM_INTERRUPT)
    apply dispatch_invariant (fun r => isInitialized r = true) _ _ _ _ _
      (hh .RTC_SECONDS_INTERRUPT)
    exact hr
  rw [← h2]
  exact p1

theorem begin_initialized (b : Bsp) (hw : Regs → Regs) (fuel : Nat) (r : Regs)
    (res : Bool × Regs)
    (hhw : ∀ r, isInitialized r = true → isInitialized (hw r) = true)
    (hr : isInitialized r = true) (h : begin b hw fuel r = some res) :
    res.1 = true ∧ isInitialized res.2 = true := by
  simp only [begin, hr, if_true, Option.map_eq_some'] at h
  obtain ⟨r1, h1, h2⟩ := h
  have p1 : isInitialized r1 = true := by
    refine waitSync_invariant hw (fun r => isInitialized r = true) hhw fuel _ r1 ?_ h1
    exact hr
  rw [← h2]
  exact ⟨rfl, p1⟩

theorem writeBackup_other (b : Bsp) (i val : Nat) (r : Regs) (j : Nat) (h : j ≠ i) :
    (writeBackup b i val r).2.BKP_DR j = r.BKP_DR j := by
  simp only [writeBackup, disableBackupWrites, enableBackupWrites]
  exact Function.update_noteq h _ _

theorem setBackupRegister_other_slot (b : Bsp) (idx val : Nat) (r : Regs)
    (h1 : idx ≠ 1) (h2 : b.extendedBackup = true → idx ≤ 250) :
    (setBackupRegister b idx val r).2.BKP_DR RTC_INIT_REG = r.BKP_DR RTC_INIT_REG := by
  unfold setBackupRegister RTC_INIT_REG
  by_cases hb : b.extendedBackup = true
  · have h250 := h2 hb
    simp only [hb, if_true]
    by_cases hacc : 1 ≤ (if idx > 10 then (idx + 5) % 256 else idx)
        ∧ (if idx > 10 then (idx + 5) % 256 else idx) ≤ 47
    · simp only [hacc, and_self, if_true]
      apply writeBackup_other
      split <;> omega
    · simp only [hacc, if_false]
  · simp only [hb, Bool.false_eq_true, if_false]
    by_cases hacc : 1 ≤ idx ∧ idx ≤ 10
    · simp only [hacc, and_self, if_true]
      apply writeBackup_other
      omega
    · simp only [hacc, if_false]


/-! ## Status and control bits -/

theorem clearBits_testBit (x m i : Nat) (hx : x < 4294967296) :
    (clearBits x m).testBit i = (x.testBit i && !m.testBit i) := by
  unfold clearBits
  rw [Nat.testBit_and, Nat.testBit_xor]
  have h32 : (4294967295 : Nat) = 2 ^ 32 - 1 := by decide
  rw [h32, Nat.testBit_two_pow_sub_one]
  by_cases hi : i < 32
  · simp [hi]
  · have hlt : x < 2 ^ i :=
      Nat.lt_of_lt_of_le hx (Nat.pow_le_pow_right (by decide) (by omega) : 2 ^ 32 ≤ 2 ^ i)
    rw [Nat.testBit_lt_two_pow hlt]
    simp

theorem and_two_pow_eq_self_iff (x j : Nat) : x &&& 2 ^ j = 2 ^ j ↔ x.testBit j = true := by
  constructor
  · intro h
    have h1 : (x &&& 2 ^ j).testBit j = (2 ^ j).testBit j := by rw [h]
    rw [Nat.testBit_and, Nat.testBit_two_pow_self] at h1
    simpa using h1
  · intro h
    apply Nat.eq_of_testBit_eq
    intro i
    rw [Nat.testBit_and, Nat.testBit_two_pow]
    by_cases hji : j = i
    · subst hji
      simp [h]
    · simp [hji]

theorem and_two_pow_eq_zero_iff (x j : Nat) : x &&& 2 ^ j = 0 ↔ x.testBit j = false := by
  constructor
  · intro h
    have h1 : (x &&& 2 ^ j).testBit j = (0 : Nat).testBit j := by rw [h]
    rw [Nat.testBit_and, Nat.testBit_two_pow_self] at h1
    simpa using h1
  · intro h
    apply Nat.eq_of_testBit_eq
    intro i
    rw [Nat.testBit_and, Nat.testBit_two_pow]
    by_cases hji : j = i
    · subst hji
      simp [h]
    · simp [hji]

theorem and_two_pow_congr (x y j : Nat) (h : x.testBit j = y.testBit j) :
    x &&& 2 ^ j = y &&& 2 ^ j := by
  apply Nat.eq_of_testBit_eq
  intro i
  rw [Nat.testBit_and, Nat.testBit_and, Nat.testBit_two_pow]
  by_cases hji : j = i
  · subst hji
    rw [h]
  · simp [hji]

theorem flagBit_eq (k : InterruptMode) : flagBit k = 2 ^ classBit k := by
  cases k <;> rfl

theorem enableBit_eq (k : InterruptMode) : enableBit k = 2 ^ classBit k := by
  cases k <;> rfl

theorem irq_eq (c s : Nat) (hc : c < 65536) : (c &&& s) % 65536 = c &&& s :=
  Nat.mod_eq_of_lt (Nat.lt_of_le_of_lt Nat.and_le_left hc)

/-! ## The shared interrupt routine -/

theorem waitFinished_ready (hw : Regs → Regs) (fuel : Nat) (r : Regs)
    (h : r.RTC_CRL &&& RTC_CRL_RTOFF ≠ 0) : waitFinished hw (fuel + 1) r = some r := by
  simp [waitFinished, waitWhile, h]

theorem dispatch_log (irq flag : Nat) (slot : Option Handler) (im : InterruptMode)
    (s : Regs × List InterruptMode) :
    (dispatch irq flag slot im s).2
      = if irq &&& flag = flag ∧ slot.isSome = true then s.2 ++ [im] else s.2 := by
  unfold dispatch
  by_cases h : irq &&& flag = flag <;> cases slot <;> simp [h]

theorem RTC_IRQHandler_log (hw : Regs → Regs) (fuel : Nat) (d d' : Driver)
    (log : List InterruptMode) (h : RTC_IRQHandler hw fuel d = some (d', log))
    (k : InterruptMode) (hk : k ∈ log) :
    (handlerSlot d k).isSome = true
      ∧ (d.regs.RTC_CRH &&& d.regs.RTC_CRL) % 65536 &&& flagBit k = flagBit k := by
  simp only [RTC_IRQHandler, Option.map_eq_some', Prod.mk.injEq] at h
  obtain ⟨r1, _, _, h3⟩ := h
  rw [dispatch_log, dispatch_log, dispatch_log] at h3
  subst h3
  revert hk
  split <;> split <;> split <;> cases k <;>
    simp_all [handlerSlot, flagBit]

theorem RTC_IRQHandler_slots (hw : Regs → Regs) (fuel : Nat) (d d' : Driver)
    (log : List InterruptMode) (h : RTC_IRQHandler hw fuel d = some (d', log))
    (k : InterruptMode) : handlerSlot d' k = handlerSlot d k := by
  simp only [RTC_IRQHandler, Option.map_eq_some', Prod.mk.injEq] at h
  obtain ⟨r1, _, h2, _⟩ := h
  subst h2
  cases k <;> rfl

theorem RTC_IRQHandler_ready (hw : Regs → Regs) (fuel : Nat) (d : Driver)
    (hrt : d.regs.RTC_CRL &&& RTC_CRL_RTOFF ≠ 0)
    (hh : ∀ k h, handlerSlot d k = some h → ∀ r, (h r).RTC_CRL = r.RTC_CRL) :
    ∃ d' log, RTC_IRQHandler hw (fuel + 1) d = some (d', log)
      ∧ d'.regs.RTC_CRL
          = clearBits d.regs.RTC_CRL ((d.regs.RTC_CRH &&& d.regs.RTC_CRL) % 65536) := by
  have hcrl : (dispatch ((d.regs.RTC_CRH &&& d.regs.RTC_CRL) % 65536) RTC_CRL_OWF d.ISR_RTC_OW
        .RTC_OVERFLOW_INTERRUPT
      (dispatch ((d.regs.RTC_CRH &&& d.regs.RTC_CRL) % 65536) RTC_CRL_ALRF d.ISR_RTC_ALR
        .RTC_ALARM_INTERRUPT
      (dispatch ((d.regs.RTC_CRH &&& d.regs.RTC_CRL) % 65536) RTC_CRL_SECF d.ISR_RTC_SEC
        .RTC_SECONDS_INTERRUPT (d.regs, [])))).1.RTC_CRL = d.regs.RTC_CRL := by
    apply dispatch_invariant (fun r => r.RTC_CRL = d.regs.RTC_CRL) _ _ _ _ _
      (fun h hs r hr => (hh .RTC_OVERFLOW_INTERRUPT h hs r).trans hr)
    apply dispatch_invariant (fun r => r.RTC_CRL = d.regs.RTC_CRL) _ _ _ _ _
      (fun h hs r hr => (hh .RTC_ALARM_INTERRUPT h hs r).trans hr)
    apply dispatch_invariant (fun r => r.RTC_CRL = d.regs.RTC_CRL) _ _ _ _ _
      (fun h hs r hr => (hh .RTC_SECONDS_INTERRUPT h hs r).trans hr)
    rfl
  simp only [RTC_IRQHandler]
  rw [waitFinished_ready hw fuel _ (by rw [hcrl]; exact hrt)]
  simp only [Option.map_some']
  exact ⟨_, _, rfl, by simp only []; rw [hcrl]⟩

theorem isr_status_bit (c s j : Nat) (hs : s < 4294967296) (hj : j < 16) :
    (clearBits s ((c &&& s) % 65536)).testBit j = (s.testBit j && !c.testBit j) := by
  have h16 : (65536 : Nat) = 2 ^ 16 := by decide
  rw [clearBits_testBit _ _ _ hs, h16, Nat.testBit_mod_two_pow, Nat.testBit_and]
  cases s.testBit j <;> cases c.testBit j <;> simp [hj]

theorem classBit_lt (k : InterruptMode) : classBit k < 16 := by
  cases k <;> decide

theorem clearBits_and_self (x j : Nat) (hj : j < 32) : clearBits x (2 ^ j) &&& 2 ^ j = 0 := by
  rw [and_two_pow_eq_zero_iff]
  unfold clearBits
  have h32 : (4294967295 : Nat) = 2 ^ 32 - 1 := by decide
  rw [Nat.testBit_and, Nat.testBit_xor, h32, Nat.testBit_two_pow_sub_one,
    Nat.testBit_two_pow_self]
  simp [hj]

theorem detachInterrupt_spec (hw : Regs → Regs) (fuel : Nat) (k : InterruptMode)
    (d d1 : Driver) (h : detachInterrupt hw fuel k d = some d1) :
    d1.regs.RTC_CRH &&& enableBit k = 0 ∧ handlerSlot d1 k = none
      ∧ ∀ j, j ≠ k → handlerSlot d1 j = handlerSlot d j := by
  cases k <;>
  · simp only [detachInterrupt, Option.map_eq_some'] at h
    obtain ⟨r1, _, h2⟩ := h
    subst h2
    refine ⟨clearBits_and_self _ _ (by decide), rfl, ?_⟩
    intro j hj
    cases j <;> first | rfl | exact absurd rfl hj

theorem detachInterrupt_ready (hw : Regs → Regs) (fuel : Nat) (k : InterruptMode)
    (d : Driver) (hrt : d.regs.RTC_CRL &&& RTC_CRL_RTOFF ≠ 0) :
    ∃ d1, detachInterrupt hw (fuel + 1) k d = some d1 := by
  cases k <;>
  · simp only [detachInterrupt]
    rw [waitFinished_ready hw fuel _
      (show ({ d.regs with NVIC_EN0 := clearBits d.regs.NVIC_EN0 (2 ^ 3) } : Regs).RTC_CRL
          &&& RTC_CRL_RTOFF ≠ 0 from hrt)]
    exact ⟨_, rfl⟩


/-! ## Properties of the register-level operations -/

/-- C7 as stated fails: on an initialized device `setBackupRegister(1, 0)` is
accepted (it returns true) and leaves the initialized flag cleared. -/
theorem initialized_flag_overwritten :
    isInitialized idleRegs = true
      ∧ (setBackupRegister f103 1 0 idleRegs).1 = true
      ∧ isInitialized (setBackupRegister f103 1 0 idleRegs).2 = false := by
  decide

/-- C7, amended. On a device whose initialized flag is set, where neither the
hardware between polls nor a registered handler clears the flag: `setTime`,
`setAlarmTime`, `attachInterrupt`, `detachInterrupt`, the shared interrupt
routine and `begin` leave the flag set whenever they return (and `begin` reports
the device as initialized); so does `setBackupRegister` for every index other
than 1 whose 8-bit `idx + 5` does not wrap in the extended build.
`setBackupRegister(1, val)` is accepted in both builds and leaves the flag equal
to bit 0 of `val`. -/
theorem initialized_flag_preserved (b : Bsp) (hw : Regs → Regs) (fuel : Nat) (d : Driver)
    (hhw : ∀ r, isInitialized r = true → isInitialized (hw r) = true)
    (hh : ∀ k h, handlerSlot d k = some h →
      ∀ r, isInitialized r = true → isInitialized (h r) = true)
    (hinit : isInitialized d.regs = true) :
    (∀ time r', setTime b hw fuel time d.regs = some r' → isInitialized r' = true)
      ∧ (∀ time r', setAlarmTime b hw fuel time d.regs = some r' → isInitialized r' = true)
      ∧ (∀ idx val, idx ≠ 1 → (b.extendedBackup = true → idx ≤ 250) →
          isInitialized (setBackupRegister b idx val d.regs).2 = true)
      ∧ (∀ val, (setBackupRegister b 1 val d.regs).1 = true
          ∧ isInitialized (setBackupRegister b 1 val d.regs).2
              = (val &&& RTC_INIT_FLAG == RTC_INIT_FLAG))
      ∧ (∀ im handler d', attachInterrupt hw fuel im handler d = some d' →
          isInitialized d'.regs = true)
      ∧ (∀ im d', detachInterrupt hw fuel im d = some d' → isInitialized d'.regs = true)
      ∧ (∀ d' log, RTC_IRQHandler hw fuel d = some (d', log) → isInitialized d'.regs = true)
      ∧ (∀ res, begin b hw fuel d.regs = some res →
          res.1 = true ∧ isInitialized res.2 = true) := by
  refine ⟨?_, ?_, ?_, ?_, ?_, ?_, ?_, ?_⟩
  · intro time r' h
    exact setTime_initialized b hw fuel time d.regs r' hhw hinit h
  · intro time r' h
    exact setAlarmTime_initialized b hw fuel time d.regs r' hhw hinit h
  · intro idx val h1 h2
    unfold isInitialized
    rw [setBackupRegister_other_slot b idx val d.regs h1 h2]
    exact hinit
  · intro val
    cases hb : b.extendedBackup <;>
      simp [setBackupRegister, writeBackup, disableBackupWrites, enableBackupWrites,
        isInitialized, RTC_INIT_REG, hb]
  · intro im handler d' h
    exact attachInterrupt_initialized hw fuel im handler d d' hhw hinit h
  · intro im d' h
    exact detachInterrupt_initialized hw fuel im d d' hhw hinit h
  · intro d' log h
    exact RTC_IRQHandler_initialized hw fuel d d' log hhw hh hinit h
  · intro res h
    exact begin_initialized b hw fuel d.regs res hhw hinit h

/-- On the sample device `begin` and `setTime` return, and the flag is still set
after each. -/
theorem initialized_flag_preserved_witness :
    (∃ res, begin f103 readyHw 2 attachedSeconds.regs = some res
        ∧ res.1 = true ∧ isInitialized res.2 = true)
      ∧ (∃ r', setTime f103 readyHw 1 86400 attachedSeconds.regs = some r'
        ∧ isInitialized r' = true)
      ∧ isInitialized (setBackupRegister f103 2 0 attachedSeconds.regs).2 = true := by
  have key := initialized_flag_preserved f103 readyHw
  have hh : ∀ k h, handlerSlot attachedSeconds k = some h →
      ∀ r, isInitialized r = true → isInitialized (h r) = true := by
    intro k h hk r hr
    cases k
    · simp only [handlerSlot, attachedSeconds, Option.some.injEq] at hk
      rw [← hk]
      exact hr
    · simp [handlerSlot, attachedSeconds] at hk
    · simp [handlerSlot, attachedSeconds] at hk
  have h1 : (begin f103 readyHw 2 attachedSeconds.regs).isSome = true := by decide
  have h2 : (setTime f103 readyHw 1 86400 attachedSeconds.regs).isSome = true := by decide
  obtain ⟨res, hres⟩ := Option.isSome_iff_exists.mp h1
  obtain ⟨r', hr'⟩ := Option.isSome_iff_exists.mp h2
  refine ⟨⟨res, hres, ?_⟩, ⟨r', hr', ?_⟩, ?_⟩
  · exact (key 2 attachedSeconds (fun _ h => h) hh (by decide)).2.2.2.2.2.2.2 res hres
  · exact (key 1 attachedSeconds (fun _ h => h) hh (by decide)).1 86400 r' hr'
  · exact (key 1 attachedSeconds (fun _ h => h) hh (by decide)).2.2.1 2 0 (by decide)
      (by decide)


/-- C8. Flag clearing by the shared interrupt routine: with control register
value `c` (16 bits) and status register value `s` at entry, the not-busy bit set
and no registered handler changing the status register, the routine returns and
the status register is then `s AND NOT (c AND s)`, bit for bit.  Hence the flag
of a class that is both enabled and asserted is cleared, the flag of every other
class is unchanged, and when `c` holds nothing but the three enable bits
(`c < 8`) the bits `RSF`, `CNF` and `RTOFF` are unchanged. -/
theorem isr_flag_clearing (hw : Regs → Regs) (fuel : Nat) (d : Driver) (c s : Nat)
    (hc : d.regs.RTC_CRH = c) (hs : d.regs.RTC_CRL = s)
    (hc16 : c < 65536) (hs32 : s < 4294967296)
    (hrt : s &&& RTC_CRL_RTOFF ≠ 0)
    (hh : ∀ k h, handlerSlot d k = some h → ∀ r, (h r).RTC_CRL = r.RTC_CRL) :
    ∃ d' log, RTC_IRQHandler hw (fuel + 1) d = some (d', log)
      ∧ (∀ i, d'.regs.RTC_CRL.testBit i = (s.testBit i && !(c.testBit i && s.testBit i)))
      ∧ (∀ k, c &&& enableBit k = enableBit k → s &&& flagBit k = flagBit k →
          d'.regs.RTC_CRL &&& flagBit k = 0)
      ∧ (∀ k, ¬ (c &&& enableBit k = enableBit k ∧ s &&& flagBit k = flagBit k) →
          d'.regs.RTC_CRL &&& flagBit k = s &&& flagBit k)
      ∧ (c < 8 → d'.regs.RTC_CRL &&& RTC_CRL_RSF = s &&& RTC_CRL_RSF
          ∧ d'.regs.RTC_CRL &&& RTC_CRL_CNF = s &&& RTC_CRL_CNF
          ∧ d'.regs.RTC_CRL &&& RTC_CRL_RTOFF = s &&& RTC_CRL_RTOFF) := by
  subst hc hs
  obtain ⟨d', log, hres, hcrl⟩ := RTC_IRQHandler_ready hw fuel d hrt hh
  refine ⟨d', log, hres, ?_, ?_, ?_, ?_⟩
  · intro i
    rw [hcrl, irq_eq _ _ hc16, clearBits_testBit _ _ _ hs32, Nat.testBit_and]
  · intro k hen hfl
    rw [enableBit_eq, and_two_pow_eq_self_iff] at hen
    rw [flagBit_eq, and_two_pow_eq_self_iff] at hfl
    rw [flagBit_eq, and_two_pow_eq_zero_iff, hcrl, isr_status_bit _ _ _ hs32 (classBit_lt k),
      hen, hfl]
    rfl
  · intro k hne
    rw [enableBit_eq, flagBit_eq, and_two_pow_eq_self_iff, and_two_pow_eq_self_iff] at hne
    rw [flagBit_eq]
    apply and_two_pow_congr
    rw [hcrl, isr_status_bit _ _ _ hs32 (classBit_lt k)]
    cases h1 : d.regs.RTC_CRL.testBit (classBit k) <;>
      cases h2 : d.regs.RTC_CRH.testBit (classBit k) <;> simp_all
  · intro h8
    have hbit : ∀ j, 3 ≤ j → d.regs.RTC_CRH.testBit j = false := by
      intro j hj
      apply Nat.testBit_lt_two_pow
      exact Nat.lt_of_lt_of_le h8 (Nat.pow_le_pow_right (by decide) hj : 2 ^ 3 ≤ 2 ^ j)
    refine ⟨?_, ?_, ?_⟩
    · apply and_two_pow_congr
      rw [hcrl, isr_status_bit _ _ _ hs32 (by decide), hbit _ (by decide)]
      simp
    · apply and_two_pow_congr
      rw [hcrl, isr_status_bit _ _ _ hs32 (by decide), hbit _ (by decide)]
      simp
    · apply and_two_pow_congr
      rw [hcrl, isr_status_bit _ _ _ hs32 (by decide), hbit _ (by decide)]
      simp


/-- The sample handler table leaves the status register alone. -/
theorem attachedSeconds_handlers (k : InterruptMode) (h : Handler)
    (hk : handlerSlot attachedSeconds k = some h) (r : Regs) : (h r).RTC_CRL = r.RTC_CRL := by
  cases k
  · simp only [handlerSlot, attachedSeconds, Option.some.injEq] at hk
    rw [← hk]
  · simp [handlerSlot, attachedSeconds] at hk
  · simp [handlerSlot, attachedSeconds] at hk

/-- With seconds and alarm enabled and pending and overflow disabled, the
routine returns, clears both pending flags and keeps the not-busy bit. -/
theorem isr_flag_clearing_witness :
    ∃ d' log, RTC_IRQHandler readyHw 1 attachedSeconds = some (d', log)
      ∧ d'.regs.RTC_CRL &&& flagBit .RTC_SECONDS_INTERRUPT = 0
      ∧ d'.regs.RTC_CRL &&& flagBit .RTC_ALARM_INTERRUPT = 0
      ∧ d'.regs.RTC_CRL &&& flagBit .RTC_OVERFLOW_INTERRUPT = 0
      ∧ d'.regs.RTC_CRL &&& RTC_CRL_RTOFF = 32 := by
  obtain ⟨d', log, h1, _, h3, h4, h5⟩ :=
    isr_flag_clearing readyHw 0 attachedSeconds 3 35 rfl rfl (by decide) (by decide)
      (by decide) attachedSeconds_handlers
  exact ⟨d', log, h1, h3 .RTC_SECONDS_INTERRUPT (by decide) (by decide),
    h3 .RTC_ALARM_INTERRUPT (by decide) (by decide),
    h4 .RTC_OVERFLOW_INTERRUPT (by decide), (h5 (by decide)).2.2⟩

/-- C9 as stated fails: with the seconds class enabled, its flag asserted and its
handler slot empty, the routine returns with the seconds flag cleared. -/
theorem isr_clears_flag_of_empty_slot :
    (handlerSlot pendingNoHandler .RTC_SECONDS_INTERRUPT).isNone = true
      ∧ pendingNoHandler.regs.RTC_CRL &&& RTC_CRL_SECF = RTC_CRL_SECF
      ∧ (RTC_IRQHandler readyHw 1 pendingNoHandler).map
          (fun p => p.1.regs.RTC_CRL &&& RTC_CRL_SECF) = some 0 := by
  decide

/-- C9, amended. For every interrupt class whose handler slot is empty at entry
(not-busy bit set, no registered handler changing the status register), the
shared interrupt routine returns having invoked no handler for the class; it
leaves the class's status flag unchanged unless the flag is asserted and the
class's enable bit is set, in which case the flag is cleared. -/
theorem isr_empty_slot (hw : Regs → Regs) (fuel : Nat) (d : Driver) (k : InterruptMode)
    (hslot : handlerSlot d k = none)
    (hs32 : d.regs.RTC_CRL < 4294967296)
    (hrt : d.regs.RTC_CRL &&& RTC_CRL_RTOFF ≠ 0)
    (hh : ∀ j h, handlerSlot d j = some h → ∀ r, (h r).RTC_CRL = r.RTC_CRL) :
    ∃ d' log, RTC_IRQHandler hw (fuel + 1) d = some (d', log)
      ∧ k ∉ log
      ∧ (¬ (d.regs.RTC_CRH &&& enableBit k = enableBit k
            ∧ d.regs.RTC_CRL &&& flagBit k = flagBit k) →
          d'.regs.RTC_CRL &&& flagBit k = d.regs.RTC_CRL &&& flagBit k)
      ∧ (d.regs.RTC_CRH &&& enableBit k = enableBit k
            ∧ d.regs.RTC_CRL &&& flagBit k = flagBit k →
          d'.regs.RTC_CRL &&& flagBit k = 0) := by
  obtain ⟨d', log, hres, hcrl⟩ := RTC_IRQHandler_ready hw fuel d hrt hh
  refine ⟨d', log, hres, ?_, ?_, ?_⟩
  · intro hmem
    have := (RTC_IRQHandler_log hw (fuel + 1) d d' log hres k hmem).1
    rw [hslot] at this
    simp at this
  · intro hne
    rw [enableBit_eq, flagBit_eq, and_two_pow_eq_self_iff, and_two_pow_eq_self_iff] at hne
    rw [flagBit_eq]
    apply and_two_pow_congr
    rw [hcrl, isr_status_bit _ _ _ hs32 (classBit_lt k)]
    cases h1 : d.regs.RTC_CRL.testBit (classBit k) <;>
      cases h2 : d.regs.RTC_CRH.testBit (classBit k) <;> simp_all
  · intro ⟨hen, hfl⟩
    rw [enableBit_eq, and_two_pow_eq_self_iff] at hen
    rw [flagBit_eq, and_two_pow_eq_self_iff] at hfl
    rw [flagBit_eq, and_two_pow_eq_zero_iff, hcrl, isr_status_bit _ _ _ hs32 (classBit_lt k),
      hen, hfl]
    rfl

/-- On the sample state the alarm class has no handler and is neither enabled
nor asserted: the routine returns, invokes nothing for it and its flag stays
clear; the seconds class, enabled and asserted without a handler, has its flag
cleared. -/
theorem isr_empty_slot_witness :
    (∃ d' log, RTC_IRQHandler readyHw 1 pendingNoHandler = some (d', log)
        ∧ InterruptMode.RTC_ALARM_INTERRUPT ∉ log
        ∧ d'.regs.RTC_CRL &&& RTC_CRL_ALRF = 0)
      ∧ (∃ d' log, RTC_IRQHandler readyHw 1 pendingNoHandler = some (d', log)
        ∧ InterruptMode.RTC_SECONDS_INTERRUPT ∉ log
        ∧ d'.regs.RTC_CRL &&& RTC_CRL_SECF = 0) := by
  have hh : ∀ j h, handlerSlot pendingNoHandler j = some h →
      ∀ r, (h r).RTC_CRL = r.RTC_CRL := by
    intro j h hj
    cases j <;> simp [handlerSlot, pendingNoHandler] at hj
  constructor
  · obtain ⟨d', log, h1, h2, h3, _⟩ :=
      isr_empty_slot readyHw 0 pendingNoHandler .RTC_ALARM_INTERRUPT rfl (by decide)
        (by decide) hh
    exact ⟨d', log, h1, h2, (h3 (by decide)).trans (by decide)⟩
  · obtain ⟨d', log, h1, h2, _, h4⟩ :=
      isr_empty_slot readyHw 0 pendingNoHandler .RTC_SECONDS_INTERRUPT rfl (by decide)
        (by decide) hh
    exact ⟨d', log, h1, h2, h4 (by decide)⟩


/-- C10 as stated fails: after `detachInterrupt` of the seconds class, with the
seconds flag asserted again, the routine returns having invoked no handler, and
the seconds flag is still set. -/
theorem isr_keeps_flag_after_detach :
    ((detachInterrupt readyHw 1 .RTC_SECONDS_INTERRUPT attachedSeconds).bind fun d1 =>
        (RTC_IRQHandler readyHw 1
            { d1 with regs := { d1.regs with RTC_CRL := d1.regs.RTC_CRL ||| RTC_CRL_SECF } }).map
          fun p => (p.1.regs.RTC_CRL &&& RTC_CRL_SECF, p.2))
      = some (RTC_CRL_SECF, []) := by
  decide

/-- C10, amended. For every interrupt class `k` and prior state (no registered
handler changing the status register): `detachInterrupt(k)` returns when the
not-busy bit is set, and whenever it returns the enable bit of `k` is clear and
the handler slot of `k` is empty; if the status register then comes to hold a
value with the flag of `k` asserted (and not-busy set) and the shared interrupt
routine runs, the routine returns, invokes no handler for `k`, and leaves the
flag of `k` asserted. -/
theorem detach_postcondition (hw : Regs → Regs) (fuel : Nat) (k : InterruptMode) (d : Driver)
    (hh : ∀ j h, handlerSlot d j = some h → ∀ r, (h r).RTC_CRL = r.RTC_CRL) :
    (d.regs.RTC_CRL &&& RTC_CRL_RTOFF ≠ 0 →
        ∃ d1, detachInterrupt hw (fuel + 1) k d = some d1)
      ∧ ∀ d1, detachInterrupt hw fuel k d = some d1 →
          d1.regs.RTC_CRH &&& enableBit k = 0
            ∧ handlerSlot d1 k = none
            ∧ ∀ fuel2 s : Nat, s < 4294967296 → s &&& flagBit k = flagBit k →
                s &&& RTC_CRL_RTOFF ≠ 0 →
                ∃ d2 log,
                  RTC_IRQHandler hw (fuel2 + 1)
                      { d1 with regs := { d1.regs with RTC_CRL := s } } = some (d2, log)
                    ∧ k ∉ log
                    ∧ d2.regs.RTC_CRL &&& flagBit k = flagBit k := by
  refine ⟨detachInterrupt_ready hw fuel k d, ?_⟩
  intro d1 hdet
  obtain ⟨hen, hslot, hother⟩ := detachInterrupt_spec hw fuel k d d1 hdet
  refine ⟨hen, hslot, ?_⟩
  intro fuel2 s hs32 hfl hrt
  have hslots : ∀ j, handlerSlot { d1 with regs := { d1.regs with RTC_CRL := s } } j
      = handlerSlot d1 j := by
    intro j
    cases j <;> rfl
  have hh1 : ∀ j h, handlerSlot { d1 with regs := { d1.regs with RTC_CRL := s } } j = some h →
      ∀ r, (h r).RTC_CRL = r.RTC_CRL := by
    intro j h hj
    rw [hslots] at hj
    by_cases hjk : j = k
    · subst hjk
      rw [hslot] at hj
      cases hj
    · rw [hother j hjk] at hj
      exact hh j h hj
  obtain ⟨d2, log, hres, hcrl⟩ :=
    RTC_IRQHandler_ready hw fuel2 { d1 with regs := { d1.regs with RTC_CRL := s } } hrt hh1
  refine ⟨d2, log, hres, ?_, ?_⟩
  · intro hmem
    have := (RTC_IRQHandler_log hw (fuel2 + 1) _ d2 log hres k hmem).1
    rw [hslots, hslot] at this
    simp at this
  · rw [enableBit_eq, and_two_pow_eq_zero_iff] at hen
    rw [flagBit_eq, and_two_pow_eq_self_iff] at hfl
    rw [flagBit_eq, and_two_pow_eq_self_iff, hcrl]
    simp only []
    rw [isr_status_bit _ _ _ hs32 (classBit_lt k), hen, hfl]
    rfl

/-- On the sample state `detachInterrupt` of the seconds class returns with the
enable bit clear and the slot empty. -/
theorem detach_postcondition_witness :
    ∃ d1, detachInterrupt readyHw 1 .RTC_SECONDS_INTERRUPT attachedSeconds = some d1
      ∧ d1.regs.RTC_CRH &&& RTC_CRH_SECIE = 0
      ∧ (handlerSlot d1 .RTC_SECONDS_INTERRUPT).isNone = true
      ∧ ∃ d2 log,
          RTC_IRQHandler readyHw 1 { d1 with regs := { d1.regs with RTC_CRL := 33 } }
              = some (d2, log)
            ∧ InterruptMode.RTC_SECONDS_INTERRUPT ∉ log
            ∧ d2.regs.RTC_CRL &&& RTC_CRL_SECF = RTC_CRL_SECF := by
  have key := detach_postcondition readyHw 0 .RTC_SECONDS_INTERRUPT attachedSeconds
    attachedSeconds_handlers
  obtain ⟨d1, hd1⟩ := key.1 (by decide)
  have key1 := (detach_postcondition readyHw 1 .RTC_SECONDS_INTERRUPT attachedSeconds
    attachedSeconds_handlers).2 d1 hd1
  obtain ⟨h1, h2, h3⟩ := key1
  refine ⟨d1, hd1, h1, by rw [h2]; rfl, ?_⟩
  exact h3 0 33 (by decide) (by decide) (by decide)

/-! ## Instances -/

/-- Month -13 of year 2000 is November 1998: the general rule at `m = 11`,
`k = -2`. -/
theorem month_normalization_witness :
    dateTimeToEpoch { sampleDate with month := -13 } sampleTime
        = dateTimeToEpoch { sampleDate with year := 1998, month := 11 } sampleTime
      ∧ (dateTimeToEpoch { sampleDate with year := 1998, month := 11 } sampleTime).1
        = 910269015 := by
  have h := (month_normalization sampleDate sampleTime).2.2 11 (-2) (by decide) (by decide)
    (by decide) (by decide) (by decide) (by decide)
  have e1 : (11 : Int) + 12 * -2 = -13 := by decide
  have e2 : ((sampleDate.year : Int) + -2).toNat = 1998 := by decide
  rw [e1, e2] at h
  exact ⟨h, by decide⟩

/-- A read that straddles the carry from 0x0000FFFF to 0x00010000: the high
half changes between its two reads and the result pairs the second high half
with the low half read last. -/
theorem getTime_rollover_safe_witness : (getTime tickHw idleRegs).1 = 65538 :=
  congrArg Prod.fst ((getTime_rollover_safe tickHw idleRegs).2 (by decide))

/-- Indices 0 and 11 are refused and index 10 is accepted on the base
variant. -/
theorem base_backup_index_range_witness :
    (setBackupRegister f103 0 7 idleRegs).1 = false
      ∧ getBackupRegister f103 0 idleRegs = 0
      ∧ (setBackupRegister f103 11 7 idleRegs).1 = false
      ∧ getBackupRegister f103 11 idleRegs = 0
      ∧ (setBackupRegister f103 10 7 idleRegs).1 = true :=
  ⟨congrArg Prod.fst ((base_backup_index_range f103 0 7 idleRegs).1 (by decide)).1,
    ((base_backup_index_range f103 0 7 idleRegs).1 (by decide)).2,
    congrArg Prod.fst ((base_backup_index_range f103 11 7 idleRegs).1 (by decide)).1,
    ((base_backup_index_range f103 11 7 idleRegs).1 (by decide)).2,
    (base_backup_index_range f103 10 7 idleRegs).2 (by decide)⟩

/-! ## Dispatch by the shared interrupt routine -/

theorem irq_flag_iff (c s j : Nat) (hj : j < 16) :
    (c &&& s) % 65536 &&& 2 ^ j = 2 ^ j ↔ s &&& 2 ^ j = 2 ^ j ∧ c &&& 2 ^ j = 2 ^ j := by
  have h16 : (65536 : Nat) = 2 ^ 16 := by decide
  rw [and_two_pow_eq_self_iff, and_two_pow_eq_self_iff, and_two_pow_eq_self_iff, h16,
    Nat.testBit_mod_two_pow, Nat.testBit_and]
  cases s.testBit j <;> cases c.testBit j <;> simp [hj]

/-- The condition under which the routine calls the handler of class `k`: flag
asserted, class enabled, slot not empty. -/
theorem dispatch_cond (d : Driver) (k : InterruptMode) :
    ((d.regs.RTC_CRH &&& d.regs.RTC_CRL) % 65536 &&& flagBit k = flagBit k
        ∧ (handlerSlot d k).isSome = true)
      ↔ (d.regs.RTC_CRL &&& flagBit k = flagBit k
        ∧ d.regs.RTC_CRH &&& enableBit k = enableBit k
        ∧ (handlerSlot d k).isSome = true) := by
  rw [enableBit_eq, flagBit_eq, irq_flag_iff _ _ _ (classBit_lt k)]
  tauto

theorem ite_list_congr {α : Type} (p q : Prop) [Decidable p] [Decidable q] (h : p ↔ q)
    (xs l : List α) :
    (if p then l ++ xs else l) = l ++ (if q then xs else []) := by
  by_cases hp : p
  · simp [hp, h.mp hp]
  · simp [hp, mt h.mpr hp]

theorem RTC_IRQHandler_log_eq (hw : Regs → Regs) (fuel : Nat) (d d' : Driver)
    (log : List InterruptMode) (h : RTC_IRQHandler hw fuel d = some (d', log)) :
    log
      = (if d.regs.RTC_CRL &&& flagBit .RTC_SECONDS_INTERRUPT = flagBit .RTC_SECONDS_INTERRUPT
            ∧ d.regs.RTC_CRH &&& enableBit .RTC_SECONDS_INTERRUPT
                = enableBit .RTC_SECONDS_INTERRUPT
            ∧ (handlerSlot d .RTC_SECONDS_INTERRUPT).isSome = true
          then [InterruptMode.RTC_SECONDS_INTERRUPT] else [])
        ++ (if d.regs.RTC_CRL &&& flagBit .RTC_ALARM_INTERRUPT = flagBit .RTC_ALARM_INTERRUPT
            ∧ d.regs.RTC_CRH &&& enableBit .RTC_ALARM_INTERRUPT = enableBit .RTC_ALARM_INTERRUPT
            ∧ (handlerSlot d .RTC_ALARM_INTERRUPT).isSome = true
          then [InterruptMode.RTC_ALARM_INTERRUPT] else [])
        ++ (if d.regs.RTC_CRL &&& flagBit .RTC_OVERFLOW_INTERRUPT
                = flagBit .RTC_OVERFLOW_INTERRUPT
            ∧ d.regs.RTC_CRH &&& enableBit .RTC_OVERFLOW_INTERRUPT
                = enableBit .RTC_OVERFLOW_INTERRUPT
            ∧ (handlerSlot d .RTC_OVERFLOW_INTERRUPT).isSome = true
          then [InterruptMode.RTC_OVERFLOW_INTERRUPT] else []) := by
  simp only [RTC_IRQHandler, Option.map_eq_some', Prod.mk.injEq] at h
  obtain ⟨r1, _, _, h3⟩ := h
  rw [dispatch_log, dispatch_log, dispatch_log] at h3
  subst h3
  have c1 := dispatch_cond d .RTC_SECONDS_INTERRUPT
  have c2 := dispatch_cond d .RTC_ALARM_INTERRUPT
  have c3 := dispatch_cond d .RTC_OVERFLOW_INTERRUPT
  simp only [flagBit, enableBit, handlerSlot] at c1 c2 c3 ⊢
  rw [ite_list_congr _ _ c3, ite_list_congr _ _ c2, ite_list_congr _ _ c1]
  simp only [List.nil_append]

/-- C11. Dispatch by the shared interrupt routine: for every control value,
status value and handler table at entry, whenever the routine returns, the
handler of a class has been invoked if and only if the class's flag is set in
the status register, its enable bit is set in the control register and its
handler slot is not empty; no class is invoked twice, and the invocations occur
in the order seconds, alarm, overflow.  The routine returns when the not-busy
bit is set and no registered handler changes the status register. -/
theorem isr_dispatch (hw : Regs → Regs) (fuel : Nat) (d : Driver) :
    (∀ d' log, RTC_IRQHandler hw fuel d = some (d', log) →
        (∀ k, k ∈ log ↔
            (d.regs.RTC_CRL &&& flagBit k = flagBit k
              ∧ d.regs.RTC_CRH &&& enableBit k = enableBit k
              ∧ handlerSlot d k ≠ none))
          ∧ log.Nodup
          ∧ List.Sublist log [InterruptMode.RTC_SECONDS_INTERRUPT,
              InterruptMode.RTC_ALARM_INTERRUPT, InterruptMode.RTC_OVERFLOW_INTERRUPT])
      ∧ (d.regs.RTC_CRL &&& RTC_CRL_RTOFF ≠ 0 →
          (∀ k h, handlerSlot d k = some h → ∀ r, (h r).RTC_CRL = r.RTC_CRL) →
          ∃ d' log, RTC_IRQHandler hw (fuel + 1) d = some (d', log)) := by
  constructor
  · intro d' log h
    have hlog := RTC_IRQHandler_log_eq hw fuel d d' log h
    have hne : ∀ k, handlerSlot d k ≠ none ↔ (handlerSlot d k).isSome = true := by
      intro k
      cases handlerSlot d k <;> simp
    simp only [hne]
    subst hlog
    by_cases h1 : (d.regs.RTC_CRL &&& flagBit .RTC_SECONDS_INTERRUPT
          = flagBit .RTC_SECONDS_INTERRUPT
        ∧ d.regs.RTC_CRH &&& enableBit .RTC_SECONDS_INTERRUPT
          = enableBit .RTC_SECONDS_INTERRUPT
        ∧ (handlerSlot d .RTC_SECONDS_INTERRUPT).isSome = true) <;>
    by_cases h2 : (d.regs.RTC_CRL &&& flagBit .RTC_ALARM_INTERRUPT
          = flagBit .RTC_ALARM_INTERRUPT
        ∧ d.regs.RTC_CRH &&& enableBit .RTC_ALARM_INTERRUPT = enableBit .RTC_ALARM_INTERRUPT
        ∧ (handlerSlot d .RTC_ALARM_INTERRUPT).isSome = true) <;>
    by_cases h3 : (d.regs.RTC_CRL &&& flagBit .RTC_OVERFLOW_INTERRUPT
          = flagBit .RTC_OVERFLOW_INTERRUPT
        ∧ d.regs.RTC_CRH &&& enableBit .RTC_OVERFLOW_INTERRUPT
          = enableBit .RTC_OVERFLOW_INTERRUPT
        ∧ (handlerSlot d .RTC_OVERFLOW_INTERRUPT).isSome = true) <;>
      simp only [h1, h2, h3, if_true, if_false, List.nil_append, List.append_nil,
        List.singleton_append] <;>
      refine ⟨?_, by decide, by decide⟩ <;>
      intro k <;> cases k <;> simp [h1, h2, h3]
  · intro hrt hh
    obtain ⟨d', log, hres, _⟩ := RTC_IRQHandler_ready hw fuel d hrt hh
    exact ⟨d', log, hres⟩

/-- With seconds and alarm enabled and pending and only a seconds handler
registered, the routine returns having invoked the seconds handler and not the
alarm handler. -/
theorem isr_dispatch_witness :
    ∃ d' log, RTC_IRQHandler readyHw 1 attachedSeconds = some (d', log)
      ∧ InterruptMode.RTC_SECONDS_INTERRUPT ∈ log
      ∧ InterruptMode.RTC_ALARM_INTERRUPT ∉ log := by
  obtain ⟨d', log, h⟩ :=
    (isr_dispatch readyHw 0 attachedSeconds).2 (by decide) attachedSeconds_handlers
  have hp := (isr_dispatch readyHw 1 attachedSeconds).1 d' log h
  refine ⟨d', log, h, (hp.1 _).mpr ⟨by decide, by decide, ?_⟩, fun hm => ?_⟩
  · simp [handlerSlot, attachedSeconds]
  · exact ((hp.1 _).mp hm).2.2 rfl

/-! ## Canonical output, time of day and anchors -/

theorem u32_lt (x : Int) : u32 x < 4294967296 := by
  unfold u32
  omega

theorem round_trip_core (e : Nat) (he : e < 4294967296) (d0 : DateVar) (t0 : TimeVar)
    (hy : (epochToDate e d0).year ≤ 2105) :
    (dateTimeToEpoch (epochToDate e d0) (epochToTime e t0)).1 = e := by
  obtain ⟨i, hi, hN, hy1, _, hL, hs1, hs2, hdi, _, hM, hD⟩ := epochToDate_spec e he d0
  obtain ⟨hH, hMi, hS⟩ := epochToTime_spec e t0
  rw [dateTimeToEpoch_fst_of_normal _ _ (by omega) (by omega) hy1 hy, hM, hD, hH, hMi, hS, ← hL]
  have hidx : (i : Int) + 1 - 1 = (i : Int) := by omega
  rw [hidx]
  have hnd : u16 ((getSumOfDayFromYearValue (epochToDate e d0).year : Int)
        + getNumberOfDaysUntilMonth (i : Int) (epochToDate e d0).isLeapYear
        + (((e / 86400 - getSumOfDayFromYearValue (epochToDate e d0).year : Nat) : Int)
            - getNumberOfDaysUntilMonth (i : Int) (epochToDate e d0).isLeapYear + 1) - 1)
      = e / 86400 := by
    rw [u16_of_lt _ (by omega) (by omega)]
    omega
  rw [hnd]
  unfold u32
  omega

theorem dateTimeToEpoch_outputs (d : DateVar) (t : TimeVar) (d0 : DateVar) (t0 : TimeVar) :
    (dateTimeToEpoch d t).2.1 = epochToDate (dateTimeToEpoch d t).1 d0
      ∧ (dateTimeToEpoch d t).2.2 = epochToTime (dateTimeToEpoch d t).1 t0 := by
  constructor
  · simp only [dateTimeToEpoch]
    exact epochToDate_indep _ _ _
  · rfl

theorem dateTimeToEpoch_fst_lt (d : DateVar) (t : TimeVar) :
    (dateTimeToEpoch d t).1 < 4294967296 := by
  simp only [dateTimeToEpoch]
  exact u32_lt _

/-- C12. Canonical output of `dateTimeToEpoch`: for every input date and time,
with `t` the returned epoch, the date on return is what `epochToDate(t)` writes
(all six fields, whatever the structure held before) and the time on return is
what `epochToTime(t)` writes; and when the output year is at most 2105, calling
`dateTimeToEpoch` on its own outputs returns `t` again, with the same outputs. -/
theorem canonical_output (d : DateVar) (t : TimeVar) :
    (∀ d0, (dateTimeToEpoch d t).2.1 = epochToDate (dateTimeToEpoch d t).1 d0)
      ∧ (∀ t0, (dateTimeToEpoch d t).2.2 = epochToTime (dateTimeToEpoch d t).1 t0)
      ∧ ((dateTimeToEpoch d t).2.1.year ≤ 2105 →
          (dateTimeToEpoch (dateTimeToEpoch d t).2.1 (dateTimeToEpoch d t).2.2).1
              = (dateTimeToEpoch d t).1
            ∧ dateTimeToEpoch (dateTimeToEpoch d t).2.1 (dateTimeToEpoch d t).2.2
              = dateTimeToEpoch d t) := by
  refine ⟨fun d0 => (dateTimeToEpoch_outputs d t d0 t).1,
    fun t0 => (dateTimeToEpoch_outputs d t d t0).2, ?_⟩
  intro hy
  have h1 : (dateTimeToEpoch (dateTimeToEpoch d t).2.1 (dateTimeToEpoch d t).2.2).1
      = (dateTimeToEpoch d t).1 := by
    have e1 := (dateTimeToEpoch_outputs d t d t).1
    have e2 := (dateTimeToEpoch_outputs d t d t).2
    rw [e1] at hy
    rw [e1, e2]
    exact round_trip_core _ (dateTimeToEpoch_fst_lt d t) d t hy
  refine ⟨h1, ?_⟩
  have o := dateTimeToEpoch_outputs (dateTimeToEpoch d t).2.1 (dateTimeToEpoch d t).2.2 d t
  have o' := dateTimeToEpoch_outputs d t d t
  rw [h1] at o
  exact Prod.ext h1 (Prod.ext (o.1.trans o'.1.symm) (o.2.trans o'.2.symm))

/-- For 31 February 2000, 12:30:15 the outputs are canonical and a second call
returns the same epoch. -/
theorem canonical_output_witness :
    (dateTimeToEpoch { sampleDate with month := 2, day := 31 } sampleTime).2.1.year ≤ 2105
      ∧ (dateTimeToEpoch
            (dateTimeToEpoch { sampleDate with month := 2, day := 31 } sampleTime).2.1
            (dateTimeToEpoch { sampleDate with month := 2, day := 31 } sampleTime).2.2).1
          = (dateTimeToEpoch { sampleDate with month := 2, day := 31 } sampleTime).1 :=
  ⟨by decide,
    ((canonical_output { sampleDate with month := 2, day := 31 } sampleTime).2.2
      (by decide)).1⟩

/-- C13. Time-of-day decomposition: for every 32-bit epoch `e`, `epochToTime`
writes hours in 0..23, minutes in 0..59 and seconds in 0..59 with
`hours * 3600 + minutes * 60 + seconds = e mod 86400`, `epochToDate` writes
`numberOfDays = e div 86400`, and
`numberOfDays * 86400 + hours * 3600 + minutes * 60 + seconds = e`. -/
theorem time_of_day (e : Nat) (he : e < 4294967296) (d0 : DateVar) (t0 : TimeVar) :
    0 ≤ (epochToTime e t0).hours ∧ (epochToTime e t0).hours ≤ 23
      ∧ 0 ≤ (epochToTime e t0).minutes ∧ (epochToTime e t0).minutes ≤ 59
      ∧ 0 ≤ (epochToTime e t0).seconds ∧ (epochToTime e t0).seconds ≤ 59
      ∧ (epochToTime e t0).hours * 3600 + (epochToTime e t0).minutes * 60
          + (epochToTime e t0).seconds = ((e % 86400 : Nat) : Int)
      ∧ (epochToDate e d0).numberOfDays = e / 86400
      ∧ ((epochToDate e d0).numberOfDays : Int) * 86400 + (epochToTime e t0).hours * 3600
          + (epochToTime e t0).minutes * 60 + (epochToTime e t0).seconds = (e : Int) := by
  obtain ⟨hH, hM, hS⟩ := epochToTime_spec e t0
  obtain ⟨_, _, hN, _⟩ := epochToDate_spec e he d0
  rw [hH, hM, hS, hN]
  refine ⟨?_, ?_, ?_, ?_, ?_, ?_, ?_, rfl, ?_⟩ <;> omega

/-- The decomposition at the largest 32-bit epoch. -/
theorem time_of_day_witness :
    (epochToTime 4294967295 sampleTime).hours = 6
      ∧ (epochToTime 4294967295 sampleTime).minutes = 28
      ∧ (epochToTime 4294967295 sampleTime).seconds = 15
      ∧ ((epochToDate 4294967295 sampleDate).numberOfDays : Int) * 86400
          + (epochToTime 4294967295 sampleTime).hours * 3600
          + (epochToTime 4294967295 sampleTime).minutes * 60
          + (epochToTime 4294967295 sampleTime).seconds = 4294967295 :=
  ⟨by decide, by decide, by decide,
    (time_of_day 4294967295 (by decide) sampleDate sampleTime).2.2.2.2.2.2.2.2⟩

/-- C15. Epoch anchors: `epochToDate(0)` writes year 1970, month 1, day 1,
weekday 4 and `epochToTime(0)` writes 0:00:00; `epochToDate(86400)` writes year
1970, month 1, day 2, whatever the structures held before. -/
theorem epoch_anchors (d0 : DateVar) (t0 : TimeVar) :
    (epochToDate 0 d0).year = 1970 ∧ (epochToDate 0 d0).month = 1
      ∧ (epochToDate 0 d0).day = 1 ∧ (epochToDate 0 d0).weekday = 4
      ∧ (epochToTime 0 t0).hours = 0 ∧ (epochToTime 0 t0).minutes = 0
      ∧ (epochToTime 0 t0).seconds = 0
      ∧ (epochToDate 86400 d0).year = 1970 ∧ (epochToDate 86400 d0).month = 1
      ∧ (epochToDate 86400 d0).day = 2 := by
  rw [epochToDate_indep 0 d0 sampleDate, epochToDate_indep 86400 d0 sampleDate]
  refine ⟨by decide, by decide, by decide, by decide, ?_, ?_, ?_, by decide, by decide,
    by decide⟩ <;> rfl

/-! ## Year offsets -/

/-- C17. The year offsets around 2102 and 2104: year 2102 spans
`48578 - 48212 = 366` days although the leap-year predicate is false for it,
and year 2104 spans `49308 - 48943 = 365` days although the predicate is true
for it. -/
theorem year_length_2102_2104 :
    getSumOfDayFromYearValue 1970 = 0
      ∧ getSumOfDayFromYearValue 2102 = 48212 ∧ getSumOfDayFromYearValue 2103 = 48578
      ∧ leapYearOf 2102 = false
      ∧ getSumOfDayFromYearValue 2104 = 48943 ∧ getSumOfDayFromYearValue 2105 = 49308
      ∧ leapYearOf 2104 = true := by
  decide

/-- C19. Monotone year offset: for all years `y1 ≤ y2` in 1970..2106,
`getSumOfDayFromYearValue y1 ≤ getSumOfDayFromYearValue y2`. -/
theorem year_offset_monotone (y1 y2 : Nat) (h1 : 1970 ≤ y1) (h12 : y1 ≤ y2)
    (h2 : y2 ≤ 2106) :
    getSumOfDayFromYearValue y1 ≤ getSumOfDayFromYearValue y2 := by
  rw [getSumOfDayFromYearValue_eq y1 h1 (by omega),
    getSumOfDayFromYearValue_eq y2 (by omega) h2]
  split <;> split <;> omega

/-- The offsets do not decrease across the correction that starts at 2101. -/
theorem year_offset_monotone_witness :
    getSumOfDayFromYearValue 2100 ≤ getSumOfDayFromYearValue 2101 :=
  year_offset_monotone 2100 2101 (by decide) (by decide) (by decide)

theorem year_length_agrees (y : Nat) (h1 : 1970 ≤ y) (h2 : y ≤ 2105) (ha : y ≠ 2102)
    (hb : y ≠ 2104) :
    getSumOfDayFromYearValue (y + 1)
      = getSumOfDayFromYearValue y + (if leapYearOf y = true then 366 else 365) := by
  rw [getSumOfDayFromYearValue_eq y h1 (by omega),
    getSumOfDayFromYearValue_eq (y + 1) (by omega) (by omega)]
  have hl := leapYearOf_eq y (by omega)
  obtain ⟨q, r, hr, hq⟩ : ∃ q r, r < 4 ∧ y = 1970 + 4 * q + r :=
    ⟨(y - 1970) / 4, (y - 1970) % 4, by omega, by omega⟩
  by_cases h4 : (y - 1968) % 4 = 0 ∧ y ≠ 2100
  · have ht : leapYearOf y = true := by
      rw [hl]
      simp [h4.1, h4.2]
    rw [if_pos ht]
    clear ht hl
    subst hq
    interval_cases r <;> split <;> split <;> omega
  · have hf : ¬ leapYearOf y = true := by
      rw [hl]
      intro hc
      simp only [Bool.and_eq_true, decide_eq_true_eq] at hc
      exact h4 hc
    rw [if_neg hf]
    clear hf hl
    have h4' : (y - 1968) % 4 ≠ 0 ∨ y = 2100 := by
      by_cases hm : (y - 1968) % 4 = 0
      · right
        by_contra hne
        exact h4 ⟨hm, hne⟩
      · left
        exact hm
    clear h4
    subst hq
    interval_cases r <;> split <;> split <;> omega

/-! ## Milliseconds and the backup store -/

/-- C14. Range of `getMilliseconds`: for every prescaler countdown value `raw`
in 0..32767 (high half shifted left 16, OR low half), `getMilliseconds` returns
`floor((32767 - raw) * 1000 / 32768)`, which is at most 999; for `raw = 16384`
it returns 499. -/
theorem getMilliseconds_range (r : Regs) (raw : Nat)
    (hraw : ((r.RTC_DIVH <<< 16) ||| r.RTC_DIVL) % 4294967296 = raw) (h : raw ≤ 32767) :
    getMilliseconds r = (32767 - raw) * 1000 / 32768
      ∧ getMilliseconds r ≤ 999
      ∧ (raw = 16384 → getMilliseconds r = 499) := by
  have key : getMilliseconds r = (32767 - raw) * 1000 / 32768 := by
    simp only [getMilliseconds, hraw]
    have hu : u32 (32767 - (raw : Int)) = 32767 - raw := by
      unfold u32
      omega
    rw [hu, roundF32_of_small _ (by omega), Int.tdiv_eq_ediv (by omega) (by omega),
      u16_of_lt _ (by omega) (by omega)]
    omega
  refine ⟨key, ?_, ?_⟩
  · rw [key]
    omega
  · intro h16
    rw [key, h16]

/-- A countdown value of 16384 gives 499 milliseconds. -/
theorem getMilliseconds_range_witness :
    getMilliseconds { idleRegs with RTC_DIVL := 16384 } = 499 :=
  (getMilliseconds_range { idleRegs with RTC_DIVL := 16384 } 16384 (by decide)
    (by decide)).2.2 rfl

theorem clearBits_or_and_self (x m : Nat) (hm : m < 4294967296) :
    clearBits (x ||| m) m &&& m = 0 := by
  apply Nat.eq_of_testBit_eq
  intro i
  unfold clearBits
  have h32 : (4294967295 : Nat) = 2 ^ 32 - 1 := by decide
  rw [Nat.testBit_and, Nat.testBit_and, Nat.testBit_xor, h32, Nat.testBit_two_pow_sub_one,
    Nat.zero_testBit]
  by_cases hi : i < 32
  · cases m.testBit i <;> simp [hi]
  · have hlt : m < 2 ^ i :=
      Nat.lt_of_lt_of_le hm (Nat.pow_le_pow_right (by decide) (by omega) : 2 ^ 32 ≤ 2 ^ i)
    rw [Nat.testBit_lt_two_pow hlt]
    simp

theorem writeBackup_same (b : Bsp) (i val : Nat) (r : Regs) :
    (writeBackup b i val r).2.BKP_DR i = val := by
  simp only [writeBackup, disableBackupWrites, enableBackupWrites]
  exact Function.update_same _ _ _

theorem writeBackup_dbp (b : Bsp) (i val : Nat) (r : Regs) (hb : b.PWR_CR_DBP < 4294967296) :
    (writeBackup b i val r).2.PWR_CR &&& b.PWR_CR_DBP = 0 := by
  simp only [writeBackup, disableBackupWrites, enableBackupWrites]
  exact clearBits_or_and_self _ _ hb

/-- Write/read round trip of the backup store for indices whose 8-bit `idx + 5`
does not wrap: the written slot reads back, every other accepted index reads as
before, and the write-access bit is left clear. -/
theorem backup_round_trip (b : Bsp) (idx j v : Nat) (r : Regs)
    (hb : b.PWR_CR_DBP < 4294967296) (hv : v < 65536)
    (hidx : idx ≤ 250) (hj : j ≤ 250) (hacc : (setBackupRegister b idx v r).1 = true) :
    getBackupRegister b idx (setBackupRegister b idx v r).2 = v
      ∧ (j ≠ idx →
          getBackupRegister b j (setBackupRegister b idx v r).2 = getBackupRegister b j r)
      ∧ (setBackupRegister b idx v r).2.PWR_CR &&& b.PWR_CR_DBP = 0 := by
  unfold setBackupRegister at hacc ⊢
  unfold getBackupRegister
  by_cases hext : b.extendedBackup = true
  · simp only [hext, if_true] at hacc ⊢
    by_cases hin : 1 ≤ (if idx > 10 then (idx + 5) % 256 else idx)
        ∧ (if idx > 10 then (idx + 5) % 256 else idx) ≤ 47
    · simp only [hin, and_self, if_true]
      refine ⟨?_, ?_, writeBackup_dbp b _ v r hb⟩
      · rw [writeBackup_same]
        exact Nat.mod_eq_of_lt hv
      · intro hne
        by_cases hjn : 1 ≤ (if j > 10 then (j + 5) % 256 else j)
            ∧ (if j > 10 then (j + 5) % 256 else j) ≤ 47
        · simp only [hjn, and_self, if_true]
          rw [writeBackup_other]
          split <;> split <;> omega
        · simp only [hjn, if_false]
    · simp only [hin, if_false] at hacc
      cases hacc
  · simp only [hext, Bool.false_eq_true, if_false] at hacc ⊢
    by_cases hin : 1 ≤ idx ∧ idx ≤ 10
    · simp only [hin, and_self, if_true]
      refine ⟨?_, ?_, writeBackup_dbp b _ v r hb⟩
      · rw [writeBackup_same]
        exact Nat.mod_eq_of_lt hv
      · intro hne
        by_cases hjn : 1 ≤ j ∧ j ≤ 10
        · simp only [hjn, and_self, if_true]
          rw [writeBackup_other]
          exact hne
        · simp only [hjn, if_false]
    · simp only [hin, if_false] at hacc
      cases hacc

/-- C20. In the extended build indices 1 and 252 are both accepted and address
the same slot: on the sample registers `getBackupRegister(1)` returns 1, and
after `setBackupRegister(252, 0)` has returned true it returns 0. -/
theorem extended_backup_alias :
    (setBackupRegister f103Extended 1 0 idleRegs).1 = true
      ∧ (setBackupRegister f103Extended 252 0 idleRegs).1 = true
      ∧ getBackupRegister f103Extended 1 idleRegs = 1
      ∧ getBackupRegister f103Extended 1 (setBackupRegister f103Extended 252 0 idleRegs).2
        = 0 := by
  decide

/-! ## Independence of the interrupt classes -/

theorem clearBits_testBit_lt (x m i : Nat) (hi : i < 32) :
    (clearBits x m).testBit i = (x.testBit i && !m.testBit i) := by
  unfold clearBits
  have h32 : (4294967295 : Nat) = 2 ^ 32 - 1 := by decide
  rw [Nat.testBit_and, Nat.testBit_xor, h32, Nat.testBit_two_pow_sub_one]
  simp [hi]

theorem clearBits_other_bit (x i j : Nat) (hi : i < 32) (hij : i ≠ j) :
    clearBits x (2 ^ j) &&& 2 ^ i = x &&& 2 ^ i := by
  apply and_two_pow_congr
  rw [clearBits_testBit_lt _ _ _ hi, Nat.testBit_two_pow_of_ne (Ne.symm hij)]
  simp

theorem or_other_bit (x i j : Nat) (hij : i ≠ j) : (x ||| 2 ^ j) &&& 2 ^ i = x &&& 2 ^ i := by
  apply and_two_pow_congr
  rw [Nat.testBit_or, Nat.testBit_two_pow_of_ne (Ne.symm hij)]
  simp

theorem or_same_bit (x j : Nat) : (x ||| 2 ^ j) &&& 2 ^ j = 2 ^ j := by
  rw [and_two_pow_eq_self_iff, Nat.testBit_or, Nat.testBit_two_pow_self]
  simp

theorem classBit_injective (j k : InterruptMode) (h : j ≠ k) : classBit j ≠ classBit k := by
  cases j <;> cases k <;> first | exact absurd rfl h | decide

theorem detachInterrupt_frame (hw : Regs → Regs) (fuel : Nat) (k : InterruptMode)
    (d d1 : Driver)
    (hhw : ∀ r, (hw r).RTC_CRH = r.RTC_CRH ∧ (hw r).NVIC_EN0 = r.NVIC_EN0)
    (h : detachInterrupt hw fuel k d = some d1) :
    d1.regs.RTC_CRH = clearBits d.regs.RTC_CRH (enableBit k)
      ∧ d1.regs.NVIC_EN0 = clearBits d.regs.NVIC_EN0 (2 ^ 3) := by
  have inv : ∀ r r', waitFinished hw fuel r = some r' →
      r'.RTC_CRH = r.RTC_CRH ∧ r'.NVIC_EN0 = r.NVIC_EN0 := by
    intro r r' hr
    exact waitFinished_invariant hw
      (fun x => x.RTC_CRH = r.RTC_CRH ∧ x.NVIC_EN0 = r.NVIC_EN0)
      (fun x hx => ⟨(hhw x).1.trans hx.1, (hhw x).2.trans hx.2⟩) fuel r r' ⟨rfl, rfl⟩ hr
  cases k <;>
  · simp only [detachInterrupt, Option.map_eq_some'] at h
    obtain ⟨r1, h1, h2⟩ := h
    obtain ⟨e1, e2⟩ := inv _ r1 h1
    subst h2
    simp only [enableBit]
    exact ⟨by rw [e1], e2⟩

theorem attachInterrupt_frame (hw : Regs → Regs) (fuel : Nat) (k : InterruptMode)
    (handler : Option Handler) (d d1 : Driver)
    (hhw : ∀ r, (hw r).RTC_CRH = r.RTC_CRH ∧ (hw r).NVIC_EN0 = r.NVIC_EN0)
    (h : attachInterrupt hw fuel k handler d = some d1) :
    d1.regs.RTC_CRH = d.regs.RTC_CRH ||| enableBit k
      ∧ d1.regs.NVIC_EN0 = d.regs.NVIC_EN0 ||| 2 ^ 3
      ∧ handlerSlot d1 k = handler
      ∧ ∀ j, j ≠ k → handlerSlot d1 j = handlerSlot d j := by
  have inv : ∀ r r', waitFinished hw fuel r = some r' →
      r'.RTC_CRH = r.RTC_CRH ∧ r'.NVIC_EN0 = r.NVIC_EN0 := by
    intro r r' hr
    exact waitFinished_invariant hw
      (fun x => x.RTC_CRH = r.RTC_CRH ∧ x.NVIC_EN0 = r.NVIC_EN0)
      (fun x hx => ⟨(hhw x).1.trans hx.1, (hhw x).2.trans hx.2⟩) fuel r r' ⟨rfl, rfl⟩ hr
  cases k <;>
  · simp only [attachInterrupt, Option.map_eq_some'] at h
    obtain ⟨r1, h1, h2⟩ := h
    obtain ⟨e1, e2⟩ := inv _ r1 h1
    subst h2
    simp only [enableBit]
    refine ⟨by rw [e1], by rw [e2], rfl, ?_⟩
    intro j hj
    cases j <;> first | rfl | exact absurd rfl hj

theorem attachInterrupt_ready (hw : Regs → Regs) (fuel : Nat) (k : InterruptMode)
    (handler : Option Handler) (d : Driver) (hrt : d.regs.RTC_CRL &&& RTC_CRL_RTOFF ≠ 0) :
    ∃ d1, attachInterrupt hw (fuel + 1) k handler d = some d1 := by
  cases k <;>
  · simp only [attachInterrupt]
    rw [waitFinished_ready hw fuel _ hrt]
    exact ⟨_, rfl⟩

/-- C18 as stated fails: with the controller line unmasked and the seconds
class attached, `detachInterrupt` of the alarm class returns with the line
masked. -/
theorem detach_masks_shared_line :
    attachedSeconds.regs.NVIC_EN0 &&& 2 ^ 3 = 2 ^ 3
      ∧ (detachInterrupt readyHw 1 .RTC_ALARM_INTERRUPT attachedSeconds).map
          (fun d1 => d1.regs.NVIC_EN0 &&& 2 ^ 3) = some 0 := by
  decide

/-- C18, amended. For every two distinct interrupt classes `j` and `k`, with
hardware that leaves the control register and the controller's enable set alone
while the driver polls: `detachInterrupt(k)` and `attachInterrupt(k, h)` return
when the not-busy bit is set; whenever `detachInterrupt(k)` returns, the enable
bit and the handler slot of `j` are as before and the shared controller line is
masked; whenever `attachInterrupt(k, h)` returns, the enable bit and the handler
slot of `j` are as before, the enable bit of `k` is set, the slot of `k` holds
`h`, and the shared controller line is unmasked. -/
theorem interrupt_classes_frame (hw : Regs → Regs) (fuel : Nat) (j k : InterruptMode)
    (d : Driver) (hjk : j ≠ k)
    (hhw : ∀ r, (hw r).RTC_CRH = r.RTC_CRH ∧ (hw r).NVIC_EN0 = r.NVIC_EN0) :
    (d.regs.RTC_CRL &&& RTC_CRL_RTOFF ≠ 0 →
        (∃ d1, detachInterrupt hw (fuel + 1) k d = some d1)
          ∧ ∀ h, ∃ d1, attachInterrupt hw (fuel + 1) k h d = some d1)
      ∧ (∀ d1, detachInterrupt hw fuel k d = some d1 →
          d1.regs.RTC_CRH &&& enableBit j = d.regs.RTC_CRH &&& enableBit j
            ∧ handlerSlot d1 j = handlerSlot d j
            ∧ d1.regs.NVIC_EN0 &&& 2 ^ 3 = 0)
      ∧ (∀ h d1, attachInterrupt hw fuel k h d = some d1 →
          d1.regs.RTC_CRH &&& enableBit j = d.regs.RTC_CRH &&& enableBit j
            ∧ handlerSlot d1 j = handlerSlot d j
            ∧ d1.regs.RTC_CRH &&& enableBit k = enableBit k
            ∧ handlerSlot d1 k = h
            ∧ d1.regs.NVIC_EN0 &&& 2 ^ 3 = 2 ^ 3) := by
  have hbit := classBit_injective j k hjk
  have hj32 : classBit j < 32 := Nat.lt_trans (classBit_lt j) (by decide)
  refine ⟨?_, ?_, ?_⟩
  · intro hrt
    exact ⟨detachInterrupt_ready hw fuel k d hrt,
      fun h => attachInterrupt_ready hw fuel k h d hrt⟩
  · intro d1 hdet
    obtain ⟨e1, e2⟩ := detachInterrupt_frame hw fuel k d d1 hhw hdet
    obtain ⟨_, _, hother⟩ := detachInterrupt_spec hw fuel k d d1 hdet
    refine ⟨?_, hother j hjk, ?_⟩
    · rw [e1, enableBit_eq, enableBit_eq]
      exact clearBits_other_bit _ _ _ hj32 hbit
    · rw [e2]
      exact clearBits_and_self _ 3 (by decide)
  · intro h d1 hatt
    obtain ⟨e1, e2, e3, e4⟩ := attachInterrupt_frame hw fuel k h d d1 hhw hatt
    refine ⟨?_, e4 j hjk, ?_, e3, ?_⟩
    · rw [e1, enableBit_eq, enableBit_eq]
      exact or_other_bit _ _ _ hbit
    · rw [e1, enableBit_eq]
      exact or_same_bit _ _
    · rw [e2]
      exact or_same_bit _ _

/-- On the sample state, detaching the alarm class leaves the seconds class
enabled with its handler and masks the line; attaching a handler to the alarm
class leaves the seconds class as it was and unmasks the line. -/
theorem interrupt_classes_frame_witness :
    (∃ d1, detachInterrupt readyHw 1 .RTC_ALARM_INTERRUPT attachedSeconds = some d1
        ∧ d1.regs.RTC_CRH &&& RTC_CRH_SECIE = RTC_CRH_SECIE
        ∧ handlerSlot d1 .RTC_SECONDS_INTERRUPT
            = handlerSlot attachedSeconds .RTC_SECONDS_INTERRUPT
        ∧ d1.regs.NVIC_EN0 &&& 2 ^ 3 = 0)
      ∧ (∃ d1, attachInterrupt readyHw 1 .RTC_ALARM_INTERRUPT (some clearSecondFlag)
            attachedSeconds = some d1
        ∧ d1.regs.RTC_CRH &&& RTC_CRH_SECIE = RTC_CRH_SECIE
        ∧ d1.regs.RTC_CRH &&& RTC_CRH_ALRIE = RTC_CRH_ALRIE
        ∧ d1.regs.NVIC_EN0 &&& 2 ^ 3 = 2 ^ 3) := by
  have key := interrupt_classes_frame readyHw 0 .RTC_SECONDS_INTERRUPT .RTC_ALARM_INTERRUPT
    attachedSeconds (by decide) (fun _ => ⟨rfl, rfl⟩)
  have key1 := interrupt_classes_frame readyHw 1 .RTC_SECONDS_INTERRUPT .RTC_ALARM_INTERRUPT
    attachedSeconds (by decide) (fun _ => ⟨rfl, rfl⟩)
  obtain ⟨⟨d1, hd1⟩, hatt⟩ := key.1 (by decide)
  obtain ⟨d2, hd2⟩ := hatt (some clearSecondFlag)
  obtain ⟨a1, a2, a3⟩ := key1.2.1 d1 hd1
  obtain ⟨b1, _, b3, _, b5⟩ := key1.2.2 _ d2 hd2
  exact ⟨⟨d1, hd1, a1.trans (by decide), a2, a3⟩, ⟨d2, hd2, b1.trans (by decide), b3, b5⟩⟩

/-! ## Hijri calendar converter: error bounds of the double arithmetic -/

theorem bitLengthAux_le (fuel : Nat) : ∀ n k : Nat, n < 2 ^ k → bitLengthAux fuel n ≤ k := by
  induction fuel with
  | zero =>
    intro n k _
    simp [bitLengthAux]
  | succ f ih =>
    intro n k h
    simp only [bitLengthAux]
    by_cases h0 : n = 0
    · simp [h0]
    · simp only [h0, if_false]
      by_cases h16 : n < 65536
      · simp only [h16, if_true]
        cases k with
        | zero =>
          simp at h
          omega
        | succ j =>
          have : n / 2 < 2 ^ j := by
            rw [Nat.pow_succ] at h
            omega
          have := ih (n / 2) j this
          omega
      · simp only [h16, if_false]
        by_cases hk : k < 16
        · have : 2 ^ k ≤ 2 ^ 16 := Nat.pow_le_pow_right (by decide) (by omega)
          have e16 : (2 : Nat) ^ 16 = 65536 := by decide
          omega
        · obtain ⟨j, rfl⟩ : ∃ j, k = j + 16 := ⟨k - 16, by omega⟩
          have : n / 65536 < 2 ^ j := by
            rw [Nat.pow_add] at h
            have e16 : (2 : Nat) ^ 16 = 65536 := by decide
            rw [e16] at h
            exact Nat.div_lt_of_lt_mul (by rw [Nat.mul_comm]; exact h)
          have := ih (n / 65536) j this
          omega

theorem bitLength_le (n k : Nat) (h : n < 2 ^ k) : bitLength n ≤ k :=
  bitLengthAux_le n n k h

/-- The rounding error of `roundF64` on a non-negative quotient below
`2 ^ (53 + k)` is at most half of `2 ^ k`. -/
theorem roundF64_error (num den k : Nat) (hden : 0 < den) (hq : num / den < 2 ^ (53 + k)) :
    ∃ r : Nat, roundF64 (num : Int) den = (r : Int)
      ∧ 2 * (r * den) ≤ 2 * num + 2 ^ k * den
      ∧ 2 * num ≤ 2 * (r * den) + 2 ^ k * den := by
  have he : bitLength (num / den) - 53 ≤ k := by
    have := bitLength_le _ _ hq
    omega
  generalize hE : bitLength (num / den) - 53 = e at he
  have hpow : 2 ^ e ≤ 2 ^ k := Nat.pow_le_pow_right (by decide) he
  have hpos : 0 < 2 ^ e := Nat.pow_pos (by decide)
  -- the decomposition num = m * 2 ^ e * den + lo
  have hdm := Nat.div_add_mod num den
  have hdm2 := Nat.div_add_mod (num / den) (2 ^ e)
  have hlt1 := Nat.mod_lt num hden
  have hlt2 := Nat.mod_lt (num / den) hpos
  generalize hm : num / den / 2 ^ e = m at hdm2
  generalize hr2 : num / den % 2 ^ e = r2 at hdm2 hlt2
  generalize hr1 : num % den = r1 at hdm hlt1
  generalize hqq : num / den = q at hdm hdm2 hm hr2 hE
  have hnum : num = m * (2 ^ e * den) + (r2 * den + r1) := by
    rw [← hdm, ← hdm2]
    ring
  have hlo : r2 * den + r1 < 2 ^ e * den := by
    have : (r2 + 1) * den ≤ 2 ^ e * den := Nat.mul_le_mul_right den hlt2
    rw [Nat.add_mul, Nat.one_mul] at this
    omega
  have hpk : 2 ^ e * den ≤ 2 ^ k * den := Nat.mul_le_mul_right den hpow
  by_cases hz : num = 0
  · refine ⟨0, ?_, ?_, ?_⟩
    · subst hz
      simp [roundF64]
    · omega
    · omega
  · have hsign : Int.sign (num : Int) = 1 := Int.sign_eq_one_of_pos (by omega)
    by_cases hup : 2 * (r2 * den + r1) > 2 ^ e * den
        ∨ (2 * (r2 * den + r1) = 2 ^ e * den ∧ m % 2 = 1)
    · refine ⟨(m + 1) * 2 ^ e, ?_, ?_, ?_⟩
      · simp only [roundF64, Int.natAbs_ofNat, hqq, hE, hm, hr2, hr1, hup, if_true, hsign,
          Int.one_mul]
      · have : (m + 1) * 2 ^ e * den = m * (2 ^ e * den) + 2 ^ e * den := by ring
        rw [this]
        rcases hup with h1 | h1 <;> omega
      · have : (m + 1) * 2 ^ e * den = m * (2 ^ e * den) + 2 ^ e * den := by ring
        rw [this]
        omega
    · refine ⟨m * 2 ^ e, ?_, ?_, ?_⟩
      · simp only [roundF64, Int.natAbs_ofNat, hqq, hE, hm, hr2, hr1, hup, if_false, hsign,
          Int.one_mul]
      · have : m * 2 ^ e * den = m * (2 ^ e * den) := by ring
        rw [this]
        omega
      · have : m * 2 ^ e * den = m * (2 ^ e * den) := by ring
        rw [this]
        have hle : 2 * (r2 * den + r1) ≤ 2 ^ e * den := by
          by_contra hc
          exact hup (Or.inl (by omega))
        omega

theorem MOON_CYCLE_eq : MOON_CYCLE = 544743202871507222528 := by decide!

theorem HIJRI_DIFF_eq : HIJRI_DIFF = 392036716755133399040 := by decide!

theorem two_pow_64 : (2 : Nat) ^ 64 = 18446744073709551616 := by norm_num

/-- `nod = (double)numberOfDays + HIJRI_DIFF` is within `2 ^ 27` units of the
exact sum. -/
theorem hijri_nod (n : Nat) (hn : n ≤ 65535) :
    ∃ a : Nat, dblAdd (dblOfInt n) HIJRI_DIFF = (a : Int)
      ∧ a ≤ n * 18446744073709551616 + 392036716755133399040 + 134217728
      ∧ n * 18446744073709551616 + 392036716755133399040 ≤ a + 134217728 := by
  obtain ⟨r, hr, h1, h2⟩ := roundF64_error
    (n * 18446744073709551616 + 392036716755133399040) 1 28 (by decide)
    (by rw [Nat.div_one]; norm_num; omega)
  refine ⟨r, ?_, ?_, ?_⟩
  · rw [HIJRI_DIFF_eq]
    simp only [dblAdd, dblOfInt, two_pow_64]
    rw [← hr]
    push_cast
    rfl
  · norm_num at h1
    omega
  · norm_num at h2
    omega

/-- The product `(double)hmonth * MOON_CYCLE` is within `2 ^ 26` units of the
exact product. -/
theorem hijri_product (M : Nat) (hM : M ≤ 2047) :
    ∃ p : Nat, dblMul (dblOfInt M) MOON_CYCLE = (p : Int)
      ∧ p ≤ M * 544743202871507222528 + 67108864
      ∧ M * 544743202871507222528 ≤ p + 67108864 := by
  obtain ⟨r, hr, h1, h2⟩ := roundF64_error
    (M * 18446744073709551616 * 544743202871507222528) 18446744073709551616 27 (by decide)
    (by
      rw [Nat.mul_right_comm, Nat.mul_div_cancel _ (by decide)]
      norm_num
      omega)
  refine ⟨r, ?_, ?_, ?_⟩
  · rw [MOON_CYCLE_eq]
    simp only [dblMul, dblOfInt, two_pow_64]
    rw [← hr]
    push_cast
    rfl
  · norm_num at h1
    omega
  · norm_num at h2
    omega

/-- The quotient `nod / MOON_CYCLE`, times `MOON_CYCLE`, is within
`2 ^ 21 * MOON_CYCLE` of `nod`. -/
theorem hijri_quotient (a : Nat) (ha : a ≤ 918647854870735670476800) :
    ∃ q : Nat, dblDiv (a : Int) MOON_CYCLE = (q : Int)
      ∧ q * 544743202871507222528
          ≤ a * 18446744073709551616 + 2097152 * 544743202871507222528
      ∧ a * 18446744073709551616
          ≤ q * 544743202871507222528 + 2097152 * 544743202871507222528 := by
  obtain ⟨r, hr, h1, h2⟩ := roundF64_error
    (a * 18446744073709551616) 544743202871507222528 22 (by decide)
    (by
      apply Nat.div_lt_of_lt_mul
      norm_num
      omega)
  refine ⟨r, ?_, ?_, ?_⟩
  · rw [MOON_CYCLE_eq]
    have hs : Int.sign (544743202871507222528 : Int) = 1 := by decide
    simp only [dblDiv, two_pow_64, hs, Int.mul_one]
    rw [← hr]
    push_cast
    rfl
  · norm_num at h1
    omega
  · norm_num at h2
    omega

/-- For every month index from 1 to 1685 the fractional part of the `double`
`(double)hmonth * MOON_CYCLE` lies between `2 ^ 28` and `2 ^ 64 - 2 ^ 28`
units. -/
theorem hijri_fraction_table (M : Nat) (h1 : 1 ≤ M) (h2 : M ≤ 1685) :
    268435456 ≤ dblMul (dblOfInt (M : Int)) MOON_CYCLE % 18446744073709551616
      ∧ dblMul (dblOfInt (M : Int)) MOON_CYCLE % 18446744073709551616
          ≤ 18446744073441116160 := by
  have key : (List.range 1686).all (fun M : Nat => M == 0 ||
      (decide (268435456 ≤ dblMul (dblOfInt (M : Int)) MOON_CYCLE % 18446744073709551616)
        && decide (dblMul (dblOfInt (M : Int)) MOON_CYCLE % 18446744073709551616
            ≤ 18446744073441116160))) = true := by
    decide!
  rw [List.all_eq_true] at key
  have := key M (List.mem_range.mpr (by omega))
  simp only [Bool.or_eq_true, beq_iff_eq, Bool.and_eq_true, decide_eq_true_eq] at this
  rcases this with h0 | h
  · omega
  · exact h

theorem dblFloor_nat (x : Nat) :
    dblFloor (x : Int) = ((x / 18446744073709551616 : Nat) : Int) := by
  simp only [dblFloor, two_pow_64]
  omega

theorem hijri_days_until (M p : Nat) (hp : dblMul (dblOfInt (M : Int)) MOON_CYCLE = (p : Int))
    (hlt : p / 18446744073709551616 < 65536) :
    getNumberOfDaysUntillHijriMonth (M : Int) = p / 18446744073709551616 := by
  simp only [getNumberOfDaysUntillHijriMonth, hp, dblFloor_nat]
  exact u16_natCast _ hlt

/-- The difference `nod - (double)nodim` is within `2 ^ 27` units of the exact
difference. -/
theorem hijri_difference (a c : Nat) (hc : c * 18446744073709551616 ≤ a)
    (ha : a ≤ 1208925819614629174706176) :
    ∃ d : Nat, dblSub (a : Int) (dblOfInt (c : Int)) = (d : Int)
      ∧ d + c * 18446744073709551616 ≤ a + 134217728
      ∧ a ≤ d + c * 18446744073709551616 + 134217728 := by
  obtain ⟨r, hr, h1, h2⟩ := roundF64_error (a - c * 18446744073709551616) 1 28 (by decide)
    (by rw [Nat.div_one]; norm_num; omega)
  refine ⟨r, ?_, ?_, ?_⟩
  · simp only [dblSub, dblOfInt, two_pow_64]
    rw [← hr]
    congr 1
    omega
  · norm_num at h1
    omega
  · norm_num at h2
    omega

/-- The sum `product + (double)(day - 22)` is within `2 ^ 27` units of the exact
sum `x`. -/
theorem hijri_sum (p : Nat) (k : Int) (x : Nat)
    (hx : (p : Int) + k * 18446744073709551616 = (x : Int))
    (hlt : x ≤ 1208925819614629174706176) :
    ∃ s : Nat, dblAdd (p : Int) (dblOfInt k) = (s : Int)
      ∧ s ≤ x + 134217728 ∧ x ≤ s + 134217728 := by
  obtain ⟨r, hr, h1, h2⟩ := roundF64_error x 1 28 (by decide)
    (by rw [Nat.div_one]; norm_num; omega)
  refine ⟨r, ?_, ?_, ?_⟩
  · simp only [dblAdd, dblOfInt, two_pow_64]
    rw [← hr]
    congr 1
  · norm_num at h1
    omega
  · norm_num at h2
    omega

theorem hijri_arith (n a q M p0 p1 : Nat) (hn : n ≤ 49710)
    (hA1 : a ≤ n * 18446744073709551616 + 392036716755133399040 + 134217728)
    (hA2 : n * 18446744073709551616 + 392036716755133399040 ≤ a + 134217728)
    (hQ1 : q * 544743202871507222528
          ≤ a * 18446744073709551616 + 2097152 * 544743202871507222528)
    (hQ2 : a * 18446744073709551616
          ≤ q * 544743202871507222528 + 2097152 * 544743202871507222528)
    (hM : M = q / 18446744073709551616)
    (hP01 : p0 ≤ M * 544743202871507222528 + 67108864)
    (hP02 : M * 544743202871507222528 ≤ p0 + 67108864)
    (hP11 : p1 ≤ (M + 1) * 544743202871507222528 + 67108864)
    (hP12 : (M + 1) * 544743202871507222528 ≤ p1 + 67108864) :
    M ≤ 1684 ∧ p0 / 18446744073709551616 ≤ n + 21 ∧ n + 21 ≤ p1 / 18446744073709551616
      ∧ p0 / 18446744073709551616 + 29 ≤ p1 / 18446744073709551616
      ∧ p1 / 18446744073709551616 ≤ p0 / 18446744073709551616 + 30
      ∧ (9 ≤ n → 1 ≤ M) := by
  refine ⟨?_, ?_, ?_, ?_, ?_, ?_⟩ <;> omega

theorem epochToHijriDate_spec (n : Nat) (hn : n ≤ 49710) (time : Nat)
    (htime : time / 86400 = n) (d0 : DateVar) :
    ∃ M p0 p1 : Nat, M ≤ 1684 ∧ (9 ≤ n → 1 ≤ M)
      ∧ dblMul (dblOfInt (M : Int)) MOON_CYCLE = (p0 : Int)
      ∧ dblMul (dblOfInt ((M + 1 : Nat) : Int)) MOON_CYCLE = (p1 : Int)
      ∧ p0 / 18446744073709551616 ≤ n + 21
      ∧ n + 21 ≤ p1 / 18446744073709551616
      ∧ p1 / 18446744073709551616 ≤ 49800
      ∧ ((n + 22 ≤ p1 / 18446744073709551616
            ∧ (epochToHijriDate time d0).year = (M + 9) / 12 + 1389
            ∧ (epochToHijriDate time d0).month = (((M + 9) % 12 + 1 : Nat) : Int)
            ∧ (epochToHijriDate time d0).day
                = ((n + 22 - p0 / 18446744073709551616 : Nat) : Int))
          ∨ (n + 21 = p1 / 18446744073709551616
            ∧ (epochToHijriDate time d0).year = (M + 10) / 12 + 1389
            ∧ (epochToHijriDate time d0).month = (((M + 10) % 12 + 1 : Nat) : Int)
            ∧ (epochToHijriDate time d0).day = 1)) := by
  obtain ⟨a, ha, hA1, hA2⟩ := hijri_nod n (by omega)
  obtain ⟨q, hq, hQ1, hQ2⟩ := hijri_quotient a (by omega)
  obtain ⟨p0, hp0, hP01, hP02⟩ := hijri_product (q / 18446744073709551616)
    (by clear ha hq; omega)
  obtain ⟨p1, hp1, hP11, hP12⟩ := hijri_product (q / 18446744073709551616 + 1)
    (by clear ha hq hp0; omega)
  obtain ⟨hM, hb0, hb1, hd29, hd30, h9⟩ :=
    hijri_arith n a q (q / 18446744073709551616) p0 p1 hn hA1 hA2 hQ1 hQ2 rfl hP01 hP02
      hP11 hP12
  generalize hMdef : q / 18446744073709551616 = M at *
  generalize hn0 : p0 / 18446744073709551616 = n0 at *
  generalize hn1 : p1 / 18446744073709551616 = n1 at *
  obtain ⟨d, hd, hD1, hD2⟩ := hijri_difference a n0
    (by clear * - hA2 hb0 hn0 hn; omega) (by clear * - hA1 hn; omega)
  have hfl : d / 18446744073709551616 = n + 21 - n0 := by
    clear * - hD1 hD2 hA1 hA2 hb0 hn
    omega
  have hnum : u16 ((time / 86400 : Nat) : Int) = n := by
    rw [htime]
    exact u16_natCast _ (by clear * - hn; omega)
  have hmonth0 : i16 (dblFloor (dblDiv (dblAdd (dblOfInt (n : Int)) HIJRI_DIFF) MOON_CYCLE))
      = (M : Int) := by
    rw [ha, hq, dblFloor_nat, hMdef]
    exact i16_of_small _ (by clear * - hM; omega) (by clear * - hM; omega)
  have hnodim : getNumberOfDaysUntillHijriMonth (M : Int) = n0 := by
    rw [← hn0]
    exact hijri_days_until M p0 hp0 (by clear * - hn0 hb0 hn; omega)
  have hM1 : i16 ((M : Int) + 1) = ((M + 1 : Nat) : Int) := by
    rw [i16_of_small _ (by clear * - hM; omega) (by clear * - hM; omega)]
    rfl
  have hnodim1 : getNumberOfDaysUntillHijriMonth ((M + 1 : Nat) : Int) = n1 := by
    rw [← hn1]
    exact hijri_days_until (M + 1) p1 hp1 (by clear * - hn1 hd30 hb0 hn; omega)
  have hdim : u8 ((n1 : Int) - (n0 : Int)) = n1 - n0 := by
    clear * - hd29 hd30
    unfold u8
    omega
  have hin : i16 ((n + 21 - n0 : Nat) : Int) = ((n + 21 - n0 : Nat) : Int) :=
    i16_of_small _ (by clear * - hb0 hb1 hd30; omega) (by clear * - hb0 hb1 hd30; omega)
  have hin1 : i16 (((n + 21 - n0 : Nat) : Int) + 1) = ((n + 22 - n0 : Nat) : Int) := by
    rw [i16_of_small _ (by clear * - hb0 hb1 hd30; omega) (by clear * - hb0 hb1 hd30; omega)]
    clear * - hb0
    omega
  have hday0 : i16 (i16 (dblFloor (dblSub (dblAdd (dblOfInt (n : Int)) HIJRI_DIFF)
        (dblOfInt (n0 : Int)))) + 1) = ((n + 22 - n0 : Nat) : Int) := by
    rw [ha, hd, dblFloor_nat, hfl, hin, hin1]
  refine ⟨M, p0, p1, hM, h9, hp0, hp1, ?_, ?_, ?_, ?_⟩
  · rw [hn0]
    exact hb0
  · rw [hn1]
    exact hb1
  · rw [hn1]
    clear * - hd30 hb0 hn
    omega
  rw [hn0, hn1]
  simp only [epochToHijriDate, hnum, hmonth0, hnodim, hM1, hnodim1, hdim, hday0]
  by_cases hov : n + 22 ≤ n1
  · left
    have hcmp : ¬ (((n + 22 - n0 : Nat) : Int) > ((n1 - n0 : Nat) : Int)) := by
      clear * - hov hb0 hd29
      omega
    simp only [hcmp, if_false]
    have e9 : i16 ((M : Int) + 9) = ((M + 9 : Nat) : Int) := by
      rw [i16_of_small _ (by clear * - hM; omega) (by clear * - hM; omega)]
      rfl
    rw [e9, Int.tdiv_eq_ediv (by clear * - hM; omega) (by decide),
      Int.tmod_eq_emod (by clear * - hM; omega) (by decide)]
    refine ⟨hov, ?_, ?_, trivial⟩
    · rw [u16_of_lt _ (by clear * - hM; omega) (by clear * - hM; omega)]
      clear * - hM
      omega
    · rw [i16_of_small _ (by clear * - hM; omega) (by clear * - hM; omega)]
      clear * - hM
      omega
  · right
    have hcmp : ((n + 22 - n0 : Nat) : Int) > ((n1 - n0 : Nat) : Int) := by
      clear * - hov hb0 hd29
      omega
    simp only [hcmp, if_true]
    have e9 : i16 (((M + 1 : Nat) : Int) + 9) = ((M + 10 : Nat) : Int) := by
      rw [i16_of_small _ (by clear * - hM; omega) (by clear * - hM; omega)]
      rfl
    rw [e9, Int.tdiv_eq_ediv (by clear * - hM; omega) (by decide),
      Int.tmod_eq_emod (by clear * - hM; omega) (by decide)]
    refine ⟨by clear * - hov hb1; omega, ?_, ?_, trivial⟩
    · rw [u16_of_lt _ (by clear * - hM; omega) (by clear * - hM; omega)]
      clear * - hM
      omega
    · rw [i16_of_small _ (by clear * - hM; omega) (by clear * - hM; omega)]
      clear * - hM
      omega

theorem hijriDateTimeToEpoch_fst_of_normal (d : DateVar) (t : TimeVar)
    (hm1 : 1 ≤ d.month) (hm2 : d.month ≤ 12) (hy1 : 1389 ≤ d.year) (hy2 : d.year ≤ 1529) :
    (hijriDateTimeToEpoch d t).1
      = u32 ((u16 (dblFloor (dblAdd
                (dblMul (dblOfInt (((d.year : Int) - 1389) * 12 + d.month - 10)) MOON_CYCLE)
                (dblOfInt (d.day - 22)))) : Int) * 86400
              + t.hours * 3600 + t.minutes * 60 + t.seconds) := by
  have hpos : d.month > 0 := by omega
  have hq : Int.tdiv (d.month - 1) 12 = 0 := Int.tdiv_eq_zero_of_lt (by omega) (by omega)
  have hr : Int.tmod (d.month - 1) 12 = d.month - 1 := Int.tmod_eq_of_lt (by omega) (by omega)
  have hyr : u16 ((d.year : Int) + 0) = d.year := by
    rw [Int.add_zero]
    exact u16_natCast _ (by omega)
  have hmo : i16 (d.month - 1 + 1) = d.month := by
    rw [i16_of_small _ (by omega) (by omega)]
    omega
  have hc1 : ¬ d.year < 1389 := by omega
  have hc2 : ¬ d.year > 1529 := by omega
  simp only [hijriDateTimeToEpoch, hpos, if_true, hq, hr, hyr, hmo, hc1, hc2, if_false]

theorem hijri_days_back (M p : Nat) (k : Int) (n : Nat) (hM1 : 1 ≤ M) (hM2 : M ≤ 1685)
    (hp : dblMul (dblOfInt (M : Int)) MOON_CYCLE = (p : Int))
    (hk : ((p / 18446744073709551616 : Nat) : Int) + k = (n : Int)) (hn : n ≤ 49710) :
    u16 (dblFloor (dblAdd (dblMul (dblOfInt (M : Int)) MOON_CYCLE) (dblOfInt k))) = n := by
  obtain ⟨t1, t2⟩ := hijri_fraction_table M hM1 hM2
  rw [hp] at t1 t2 ⊢
  obtain ⟨s, hs, hS1, hS2⟩ := hijri_sum p k (p % 18446744073709551616 + n * 18446744073709551616)
    (by clear * - hk; omega) (by clear * - hn; omega)
  rw [hs, dblFloor_nat]
  have hfl : s / 18446744073709551616 = n := by
    clear * - t1 t2 hS1 hS2
    omega
  rw [hfl]
  exact u16_natCast _ (by clear * - hn; omega)

theorem hijri_days_back_zero (n : Nat) (hn : n ≤ 8) :
    u16 (dblFloor (dblAdd (dblMul (dblOfInt ((0 : Nat) : Int)) MOON_CYCLE)
      (dblOfInt (n : Int)))) = n := by
  interval_cases n <;> decide!

theorem hijri_product_zero : dblMul (dblOfInt ((0 : Nat) : Int)) MOON_CYCLE = ((0 : Nat) : Int) := by
  decide!

/-- C16. Hijri round trip: for every 32-bit epoch `e` whose `epochToHijriDate`
year is at most 1529, `hijriDateTimeToEpoch` applied to the `DateVar` written
by `epochToHijriDate(e)` and the `TimeVar` written by `epochToTime(e)` returns
`e` (whatever the two structures held before the conversions). -/
theorem hijri_round_trip (e : Nat) (he : e < 4294967296) (d0 : DateVar) (t0 : TimeVar)
    (hy : (epochToHijriDate e d0).year ≤ 1529) :
    (hijriDateTimeToEpoch (epochToHijriDate e d0) (epochToTime e t0)).1 = e := by
  have hn : e / 86400 ≤ 49710 := by omega
  obtain ⟨M, p0, p1, hM, h9, hp0, hp1, hb0, hb1, _, hcase⟩ :=
    epochToHijriDate_spec (e / 86400) hn e rfl d0
  obtain ⟨hH, hMi, hS⟩ := epochToTime_spec e t0
  have hfin : ∀ x : Nat, x = e / 86400 →
      u32 ((x : Int) * 86400 + ((e % 86400 / 3600 : Nat) : Int) * 3600
        + ((e % 86400 % 3600 / 60 : Nat) : Int) * 60
        + ((e % 86400 % 3600 % 60 : Nat) : Int)) = e := by
    intro x hx
    clear * - hx he
    subst hx
    unfold u32
    omega
  rcases hcase with ⟨hov, hY, hMo, hD⟩ | ⟨hov, hY, hMo, hD⟩
  · rw [hijriDateTimeToEpoch_fst_of_normal _ _ (by rw [hMo]; clear * - hM; omega)
      (by rw [hMo]; clear * - hM; omega) (by rw [hY]; clear * - hM; omega) hy,
      hY, hMo, hD, hH, hMi, hS]
    have harg : (((((M + 9) / 12 + 1389 : Nat) : Int) - 1389) * 12
        + (((M + 9) % 12 + 1 : Nat) : Int) - 10) = (M : Int) := by
      clear * - hM
      omega
    rw [harg]
    apply hfin
    by_cases hz : M = 0
    · subst hz
      have hp : p0 = 0 := by
        have h0 := hijri_product_zero
        rw [hp0] at h0
        exact Int.ofNat.inj h0
      subst hp
      have hk : (((e / 86400 + 22 - 0 / 18446744073709551616 : Nat) : Int) - 22)
          = ((e / 86400 : Nat) : Int) := by
        clear * - hn
        omega
      rw [hk]
      exact hijri_days_back_zero _ (by clear * - h9; omega)
    · exact hijri_days_back M p0 _ _ (by clear * - hz; omega) (by clear * - hM; omega) hp0
        (by clear * - hb0; omega) hn
  · rw [hijriDateTimeToEpoch_fst_of_normal _ _ (by rw [hMo]; clear * - hM; omega)
      (by rw [hMo]; clear * - hM; omega) (by rw [hY]; clear * - hM; omega) hy,
      hY, hMo, hD, hH, hMi, hS]
    have harg : (((((M + 10) / 12 + 1389 : Nat) : Int) - 1389) * 12
        + (((M + 10) % 12 + 1 : Nat) : Int) - 10) = ((M + 1 : Nat) : Int) := by
      clear * - hM
      omega
    rw [harg]
    apply hfin
    exact hijri_days_back (M + 1) p1 _ _ (by clear * - hM; omega) (by clear * - hM; omega) hp1
      (by clear * - hov; omega) hn

/-- The Hijri round trip at epoch 1000000000 (Hijri year 1422). -/
theorem hijri_round_trip_witness :
    (epochToHijriDate 1000000000 ⟨0, 0, 0, 0, 0, false⟩).year ≤ 1529
      ∧ (hijriDateTimeToEpoch (epochToHijriDate 1000000000 ⟨0, 0, 0, 0, 0, false⟩)
          (epochToTime 1000000000 ⟨0, 0, 0⟩)).1 = 1000000000 :=
  ⟨by decide, hijri_round_trip 1000000000 (by decide) _ _ (by decide)⟩

end STM32F1_RTC
